import Mathlib

/-!
# terraform-state-visualizer: the state parser, the sensitivity classifier and the renderer

A shallow embedding of `state_parser.go`, of the functions of `html_generator.go` that
count, sort, format and mask (`countModuleResources`, `formatValue`,
`generateStateOverviewHtml`, `generateResourceAttributesHtml`, `generateOutputsHtml` and
the outputs loop of `generateModuleHtml`) and of the choice of the output path in
`main.go`, followed by theorems about them.

Modelling conventions.

* A decoded JSON document (`interface{}` as produced by `json.Unmarshal`) is the
  inductive type `JSON`: `nil`, `bool`, `float64`, `string`, `[]interface{}` and
  `map[string]interface{}`.
* A Go map is an association list with pairwise distinct keys; `m[k]` is
  `List.lookup k m` and `len(m)` is the length of the list.  A `nil` map or slice and an
  empty one are both the empty list: the program only ever takes `len` of them, ranges
  over them or indexes them, and these agree on both.
* `for k, v := range m` visits the bindings in the order of the association list (Go
  leaves the order unspecified).
* A comma-ok type assertion `x.(T)` is an `Option`-valued projection (`asString`, ...);
  indexing a map with a missing key gives the `nil` interface, for which every
  assertion fails.
* A `float64` is a rational number; `int(f)` is truncation towards zero into 64 bits.
* A string held in a decoded document is a `String` (valid UTF-8, as the decoder
  produces).  A string computed by slicing is a `GoString`, the list of its bytes:
  `len` and `s[i:j]` count bytes, not characters.
* A field named `Type` in the source is `Type_` here (`Type` is reserved).
* `(T, error)` results are `Except String T`; a `*StateData` that is mutated in place
  is passed and returned explicitly.
-/

namespace TfStateViz

/-! ## Decoded JSON values -/

/-- A value of type `interface{}` as produced by `json.Unmarshal`. -/
inductive JSON where
  | null
  | bool (b : Bool)
  | num (f : Rat)
  | str (s : String)
  | arr (xs : List JSON)
  | obj (kvs : List (String × JSON))

/-- The Go type `map[string]interface{}`. -/
abbrev JMap := List (String × JSON)

/-- The expression `m[k]` on a `map[string]interface{}`, `none` standing for a missing key. -/
def mapGet (m : JMap) (k : String) : Option JSON := List.lookup k m

/-- The assertion `x.(string)` on the result of a map index. -/
def asString : Option JSON → Option String
  | some (.str s) => some s
  | _ => none

/-- The assertion `x.(bool)` on the result of a map index. -/
def asBool : Option JSON → Option Bool
  | some (.bool b) => some b
  | _ => none

/-- The assertion `x.(float64)` on the result of a map index. -/
def asFloat64 : Option JSON → Option Rat
  | some (.num f) => some f
  | _ => none

/-- The assertion `x.([]interface{})` on the result of a map index. -/
def asArray : Option JSON → Option (List JSON)
  | some (.arr xs) => some xs
  | _ => none

/-- The assertion `x.(map[string]interface{})` on the result of a map index. -/
def asMap : Option JSON → Option JMap
  | some (.obj kvs) => some kvs
  | _ => none

/-- The conversion `int(f)` of a `float64` to the 64-bit `int`: truncation towards zero.
When the truncated value does not fit in 64 bits Go leaves the result to the
implementation; the value taken here is the one of amd64, the least 64-bit integer. -/
def floatToInt (f : Rat) : Int :=
  let truncated := Int.tdiv f.num f.den
  if -(2 : Int) ^ 63 ≤ truncated ∧ truncated < (2 : Int) ^ 63 then truncated
  else -(2 : Int) ^ 63

/-! ## The data model (`state_parser.go`, lines 8-66) -/

/-- The struct `OutputValue`. -/
structure OutputValue where
  Sensitive : Bool := false
  Type_ : JSON := .null
  Value : JSON := .null

/-- The struct `Output`. -/
structure Output where
  Name : String := ""
  Sensitive : Bool := false
  Type_ : JSON := .null
  Value : JSON := .null

/-- The struct `Resource`. -/
structure Resource where
  Address : String := ""
  Mode : String := ""
  Type_ : String := ""
  Name : String := ""
  ProviderName : String := ""
  SchemaVersion : Int := 0
  Values : JMap := []
  SensitiveValues : JMap := []
  DependsOn : List String := []

/-- The struct `Module`: a tree, each module owning its child modules. -/
inductive Module where
  | mk (Address : String) (Resources : List Resource)
      (Outputs : List (String × OutputValue)) (ChildModules : List Module)

/-- The field `Address` of a module. -/
def Module.Address : Module → String
  | .mk a _ _ _ => a

/-- The field `Resources` of a module. -/
def Module.Resources : Module → List Resource
  | .mk _ r _ _ => r

/-- The field `Outputs` of a module. -/
def Module.Outputs : Module → List (String × OutputValue)
  | .mk _ _ o _ => o

/-- The field `ChildModules` of a module. -/
def Module.ChildModules : Module → List Module
  | .mk _ _ _ c => c

/-- The struct `RootModule`. -/
structure RootModule where
  Resources : List Resource := []
  Outputs : List (String × OutputValue) := []
  ChildModules : List Module := []

/-- The struct `StateValues`. -/
structure StateValues where
  Outputs : List (String × OutputValue) := []
  RootModule : RootModule := {}

/-- The struct `StateData`; `ResourceCounts` is a `map[string]int`. -/
structure StateData where
  FormatVersion : String := ""
  TerraformVersion : String := ""
  Values : StateValues := {}
  Resources : List Resource := []
  Outputs : List Output := []
  ResourceCounts : List (String × Nat) := []
  RootModule : RootModule := {}

/-! ## Operations on `map[string]int` and `map[string]OutputValue` -/

/-- The expression `m[k]` on a `map[string]int`: a missing key reads as `0`. -/
def countAt (m : List (String × Nat)) (k : String) : Nat := (List.lookup k m).getD 0

/-- The statement `m[k]++` on a `map[string]int`. -/
def incrCount : List (String × Nat) → String → List (String × Nat)
  | [], k => [(k, 1)]
  | (k', n) :: rest, k => if k == k' then (k', n + 1) :: rest else (k', n) :: incrCount rest k

/-- The statement `m[k] = v` on a `map[string]OutputValue`. -/
def setOutput : List (String × OutputValue) → String → OutputValue → List (String × OutputValue)
  | [], k, v => [(k, v)]
  | (k', v') :: rest, k, v => if k == k' then (k', v) :: rest else (k', v') :: setOutput rest k v

/-! ## `parseResource` (lines 332-376) -/

/-- The loop over `depends_on` (lines 368-372): the strings are appended, the rest is
skipped. -/
def appendDependsOn (resource : Resource) (dependsOn : List JSON) : Resource :=
  dependsOn.foldl
    (fun resource dep =>
      match dep with
      | .str depStr => { resource with DependsOn := resource.DependsOn ++ [depStr] }
      | _ => resource)
    resource

/-- The function `parseResource`. -/
def parseResource (resourceMap : JMap) : Resource :=
  let resource : Resource := {}
  let resource :=
    match asString (mapGet resourceMap "address") with
    | some address => { resource with Address := address }
    | none => resource
  let resource :=
    match asString (mapGet resourceMap "mode") with
    | some mode => { resource with Mode := mode }
    | none => resource
  let resource :=
    match asString (mapGet resourceMap "type") with
    | some resourceType => { resource with Type_ := resourceType }
    | none => resource
  let resource :=
    match asString (mapGet resourceMap "name") with
    | some name => { resource with Name := name }
    | none => resource
  let resource :=
    match asString (mapGet resourceMap "provider_name") with
    | some providerName => { resource with ProviderName := providerName }
    | none => resource
  let resource :=
    match asFloat64 (mapGet resourceMap "schema_version") with
    | some schemaVersion => { resource with SchemaVersion := floatToInt schemaVersion }
    | none => resource
  let resource :=
    match asMap (mapGet resourceMap "values") with
    | some values => { resource with Values := values }
    | none => resource
  let resource :=
    match asMap (mapGet resourceMap "sensitive_values") with
    | some sensitiveValues => { resource with SensitiveValues := sensitiveValues }
    | none => resource
  let resource :=
    match asArray (mapGet resourceMap "depends_on") with
    | some dependsOn => appendDependsOn resource dependsOn
    | none => resource
  resource

/-! ## `parseModules` (lines 269-329) -/

/-- The loop over `resources` of a module (lines 283-288): every element that is an
object is parsed by `parseResource` and appended. -/
def parseModuleResources (resourcesData : List JSON) : List Resource :=
  resourcesData.foldl
    (fun resources resourceData =>
      match resourceData with
      | .obj resourceMap => resources ++ [parseResource resourceMap]
      | _ => resources)
    []

/-- The construction of one `OutputValue` from its object (lines 296-308). -/
def parseOutputValue (outputMap : JMap) : OutputValue :=
  let output : OutputValue := {}
  let output :=
    match asBool (mapGet outputMap "sensitive") with
    | some sensitive => { output with Sensitive := sensitive }
    | none => output
  let output :=
    match mapGet outputMap "type" with
    | some outputType => { output with Type_ := outputType }
    | none => output
  let output :=
    match mapGet outputMap "value" with
    | some value => { output with Value := value }
    | none => output
  output

/-- The loop over `outputs` of a module (lines 293-312). -/
def parseModuleOutputs (outputsData : JMap) : List (String × OutputValue) :=
  outputsData.foldl
    (fun outputs entry =>
      match entry.2 with
      | .obj outputMap => setOutput outputs entry.1 (parseOutputValue outputMap)
      | _ => outputs)
    []

/-- The function `parseModules`.  The loop `for _, moduleData := range modulesData` is
the recursion on the list: the module built from the head is followed by the modules of
the tail, and an error of the recursive call returns at once. -/
def parseModules (modulesData : List JSON) (parentAddress : String) :
    Except String (List Module) :=
  match modulesData with
  | [] => .ok []
  | .obj moduleMap :: rest =>
    let address : String :=
      match asString (mapGet moduleMap "address") with
      | some address => address
      | none => ""
    let resources : List Resource :=
      match asArray (mapGet moduleMap "resources") with
      | some resourcesData => parseModuleResources resourcesData
      | none => []
    let outputs : List (String × OutputValue) :=
      match asMap (mapGet moduleMap "outputs") with
      | some outputsData => parseModuleOutputs outputsData
      | none => []
    match h : asArray (mapGet moduleMap "child_modules") with
    | some childModulesData =>
      match parseModules childModulesData address with
      | .error err => .error ("parsing child modules for " ++ address ++ ": " ++ err)
      | .ok childModules =>
        match parseModules rest parentAddress with
        | .error err => .error err
        | .ok modules => .ok (Module.mk address resources outputs childModules :: modules)
    | none =>
      match parseModules rest parentAddress with
      | .error err => .error err
      | .ok modules => .ok (Module.mk address resources outputs [] :: modules)
  | _ :: rest => parseModules rest parentAddress
termination_by sizeOf modulesData
decreasing_by
  · have hget : ∀ (m : JMap) (v : JSON), mapGet m "child_modules" = some v →
        sizeOf v < sizeOf m := by
      intro m
      induction m with
      | nil => intro v hv; simp [mapGet, List.lookup] at hv
      | cons kv tail ih =>
        intro v hv
        obtain ⟨k, w⟩ := kv
        simp only [mapGet, List.lookup] at hv
        split at hv
        · simp only [Option.some.injEq] at hv
          subst hv
          simp only [List.cons.sizeOf_spec, Prod.mk.sizeOf_spec]
          omega
        · have := ih v hv
          simp only [List.cons.sizeOf_spec]
          omega
    cases hg : mapGet moduleMap "child_modules" with
    | none => simp [hg, asArray] at h
    | some v =>
      have hlt := hget moduleMap v hg
      cases v <;> simp [hg, asArray] at h
      subst h
      simp only [JSON.arr.sizeOf_spec] at hlt
      simp only [List.cons.sizeOf_spec, JSON.obj.sizeOf_spec]
      omega
  · simp only [List.cons.sizeOf_spec]
    omega
  · simp only [List.cons.sizeOf_spec]
    omega
  · simp only [List.cons.sizeOf_spec]
    omega

/-! ## Flattening the module tree (lines 379-396) and `countModuleResources` -/

/-- The local variable `resourceTypeKey` (lines 187-190 and 385-388). -/
def resourceTypeKey (resource : Resource) : String :=
  if resource.Mode == "data" then "data." ++ resource.Type_ else resource.Type_

/-- The two statements that record a resource in the state (lines 184-191 and 382-389):
it is appended to `state.Resources` and `state.ResourceCounts[resourceTypeKey]++`. -/
def addResourceToState (state : StateData) (resource : Resource) : StateData :=
  let state := { state with Resources := state.Resources ++ [resource] }
  { state with ResourceCounts := incrCount state.ResourceCounts (resourceTypeKey resource) }

mutual
/-- The function `addModuleResourcesToState`. -/
def addModuleResourcesToState : Module → StateData → StateData
  | .mk _ resources _ childModules, state =>
    addChildModulesToState childModules (resources.foldl addResourceToState state)
/-- The loop `for _, childModule := range module.ChildModules` (lines 393-395). -/
def addChildModulesToState : List Module → StateData → StateData
  | [], state => state
  | childModule :: rest, state =>
    addChildModulesToState rest (addModuleResourcesToState childModule state)
end

mutual
/-- The function `countModuleResources` (`html_generator.go`, lines 623-631). -/
def countModuleResources : Module → Nat
  | .mk _ resources _ childModules => countChildModules childModules resources.length
/-- The loop `for _, childModule := range module.ChildModules` (lines 626-628), started
from the current value of `count`. -/
def countChildModules : List Module → Nat → Nat
  | [], count => count
  | childModule :: rest, count =>
    countChildModules rest (count + countModuleResources childModule)
end

/-! ## `parseRootModule`, `parseValues`, `parseStateData` (lines 69-211) -/

/-- The per-field parsing that `parseRootModule` performs inline (lines 142-182). -/
def parseRootResource (resourceMap : JMap) : Resource :=
  let resource : Resource := {}
  let resource :=
    match asString (mapGet resourceMap "address") with
    | some address => { resource with Address := address }
    | none => resource
  let resource :=
    match asString (mapGet resourceMap "mode") with
    | some mode => { resource with Mode := mode }
    | none => resource
  let resource :=
    match asString (mapGet resourceMap "type") with
    | some resourceType => { resource with Type_ := resourceType }
    | none => resource
  let resource :=
    match asString (mapGet resourceMap "name") with
    | some name => { resource with Name := name }
    | none => resource
  let resource :=
    match asString (mapGet resourceMap "provider_name") with
    | some providerName => { resource with ProviderName := providerName }
    | none => resource
  let resource :=
    match asFloat64 (mapGet resourceMap "schema_version") with
    | some schemaVersion => { resource with SchemaVersion := floatToInt schemaVersion }
    | none => resource
  let resource :=
    match asMap (mapGet resourceMap "values") with
    | some values => { resource with Values := values }
    | none => resource
  let resource :=
    match asMap (mapGet resourceMap "sensitive_values") with
    | some sensitiveValues => { resource with SensitiveValues := sensitiveValues }
    | none => resource
  let resource :=
    match asArray (mapGet resourceMap "depends_on") with
    | some dependsOn => appendDependsOn resource dependsOn
    | none => resource
  resource

/-- The body of the loop over the root module's `resources` (lines 140-193). -/
def parseRootResourceStep (state : StateData) (resourceData : JSON) : StateData :=
  match resourceData with
  | .obj resourceMap => addResourceToState state (parseRootResource resourceMap)
  | _ => state

/-- The function `parseRootModule`. -/
def parseRootModule (rootModuleData : JMap) (state : StateData) : Except String StateData :=
  let state :=
    match asArray (mapGet rootModuleData "resources") with
    | some resourcesData => resourcesData.foldl parseRootResourceStep state
    | none => state
  match asArray (mapGet rootModuleData "child_modules") with
  | some childModulesData =>
    match parseModules childModulesData "" with
    | .error err => .error ("parsing child modules: " ++ err)
    | .ok modules =>
      let state := { state with RootModule := { state.RootModule with ChildModules := modules } }
      .ok (modules.foldl (fun state module => addModuleResourcesToState module state) state)
  | none => .ok state

/-- The body of the loop over `values.outputs` (lines 103-123). -/
def parseOutputStep (state : StateData) (entry : String × JSON) : StateData :=
  match entry.2 with
  | .obj outputMap =>
    let output : Output := { Name := entry.1 }
    let output :=
      match asBool (mapGet outputMap "sensitive") with
      | some sensitive => { output with Sensitive := sensitive }
      | none => output
    let output :=
      match mapGet outputMap "type" with
      | some outputType => { output with Type_ := outputType }
      | none => output
    let output :=
      match mapGet outputMap "value" with
      | some value => { output with Value := value }
      | none => output
    { state with Outputs := state.Outputs ++ [output] }
  | _ => state

/-- The function `parseValues`. -/
def parseValues (valuesData : JMap) (state : StateData) : Except String StateData :=
  let state :=
    match asMap (mapGet valuesData "outputs") with
    | some outputsData => outputsData.foldl parseOutputStep state
    | none => state
  match asMap (mapGet valuesData "root_module") with
  | some rootModuleData =>
    match parseRootModule rootModuleData state with
    | .error err => .error ("parsing root module: " ++ err)
    | .ok state => .ok state
  | none => .ok state

/-- The function `parseStateData`. -/
def parseStateData (rawData : JSON) : Except String StateData :=
  match rawData with
  | .obj stateMap =>
    let state : StateData := { ResourceCounts := [] }
    let state :=
      match asString (mapGet stateMap "format_version") with
      | some formatVersion => { state with FormatVersion := formatVersion }
      | none => state
    let state :=
      match asString (mapGet stateMap "terraform_version") with
      | some terraformVersion => { state with TerraformVersion := terraformVersion }
      | none => state
    match asMap (mapGet stateMap "values") with
    | some valuesData =>
      match parseValues valuesData state with
      | .error err => .error ("parsing values: " ++ err)
      | .ok state => .ok state
    | none => .ok state
  | _ => .error "invalid state data format"

/-! ## Go strings and the library functions used on them -/

/-- A Go `string` value: the sequence of its bytes. -/
abbrev GoString := List Nat

/-- The UTF-8 encoding of one code point. -/
def utf8EncodeChar (c : Char) : List Nat :=
  let n := c.toNat
  if n < 0x80 then [n]
  else if n < 0x800 then [0xC0 + n / 0x40, 0x80 + n % 0x40]
  else if n < 0x10000 then [0xE0 + n / 0x1000, 0x80 + n / 0x40 % 0x40, 0x80 + n % 0x40]
  else [0xF0 + n / 0x40000, 0x80 + n / 0x1000 % 0x40, 0x80 + n / 0x40 % 0x40, 0x80 + n % 0x40]

/-- The bytes of a string that was decoded from JSON or written as a literal: its UTF-8
encoding.  `len(s)` is the length of this list and `s[i:j]` is a segment of it. -/
def goBytes (s : String) : GoString := (s.data.map utf8EncodeChar).flatten

/-- Whether the byte sequence `substr` occurs in `s` as a contiguous segment. -/
def bytesContain : GoString → GoString → Bool
  | [], substr => substr.isEmpty
  | b :: rest, substr => substr.isPrefixOf (b :: rest) || bytesContain rest substr

/-- The library function `strings.Contains(s, substr)`. -/
def stringsContains (s substr : String) : Bool := bytesContain (goBytes s) (goBytes substr)

/-- The library function `strings.ToLower`: every code point is replaced by its lower
case.  On ASCII that is the shift of `A`-`Z` to `a`-`z`; on the other code points it is
the Unicode table of the Go library, which is the parameter `unicodeToLower`. -/
def stringsToLower (unicodeToLower : Char → Char) (s : String) : String :=
  String.mk (s.data.map (fun c => if c.toNat < 0x80 then c.toLower else unicodeToLower c))

/-! ## The sensitivity classifier (`state_parser.go`, lines 226-266) -/

/-- The function `isSensitiveValue`.  A `nil` map has no key, so the guard
`sensitiveValues != nil` is part of the lookup. -/
def isSensitiveValue (unicodeToLower : Char → Char) (key : String) (value : JSON)
    (sensitiveValues : JMap) : Bool :=
  match mapGet sensitiveValues key with
  | some _ => true
  | none =>
    let sensitiveKeys : List String := [
      "password", "secret", "key", "token", "credential",
      "private_key", "public_key", "certificate", "ca_cert",
      "access_key", "secret_key", "api_key", "auth_token"]
    let keyLower := stringsToLower unicodeToLower key
    sensitiveKeys.any (fun sensitiveKey => stringsContains keyLower sensitiveKey)

/-- The function `maskSensitiveValue`. -/
def maskSensitiveValue (value : JSON) : GoString :=
  match value with
  | .str v =>
    if (goBytes v).length > 8 then
      (goBytes v).take 4 ++ goBytes "..." ++ (goBytes v).drop ((goBytes v).length - 4)
    else goBytes "***"
  | .arr _ => goBytes "[***]"
  | .obj _ => goBytes "\x7b***\x7d"
  | _ => goBytes "***"

/-! ## `formatValue` (`html_generator.go`, lines 634-657) -/

/-- The function `formatValue`.  The rendering `fmt.Sprintf("%.0f", v)` of a `float64`
is the parameter `formatFloat`; `%d` is the decimal numeral and `%t` is `true` or
`false`.  The `default` branch is not reachable from a decoded JSON value. -/
def formatValue (formatFloat : Rat → GoString) (value : JSON) : GoString :=
  match value with
  | .str v =>
    if (goBytes v).length > 100 then (goBytes v).take 100 ++ goBytes "..." else goBytes v
  | .num v => formatFloat v
  | .bool v => goBytes (if v then "true" else "false")
  | .arr v =>
    if v.length = 0 then goBytes "[]" else goBytes ("[" ++ toString v.length ++ " items]")
  | .obj v => goBytes ("\x7b" ++ toString v.length ++ " fields\x7d")
  | .null => goBytes "null"

/-! ## The resource-type breakdown (`html_generator.go`, lines 317-349) -/

/-- The comparison `a > b` of two Go strings: lexicographic on their bytes. -/
def stringGt (a b : String) : Bool := decide (goBytes b < goBytes a)

/-- The assignment `sortedTypes[i], sortedTypes[j] = sortedTypes[j], sortedTypes[i]`
(line 333); both indices are in range wherever it is used. -/
def swapAt (sortedTypes : List String) (i j : Nat) : List String :=
  (sortedTypes.set i (sortedTypes.getD j "")).set j (sortedTypes.getD i "")

/-- The body of the inner loop (lines 332-334). -/
def sortInnerStep (i : Nat) (sortedTypes : List String) (j : Nat) : List String :=
  if stringGt (sortedTypes.getD i "") (sortedTypes.getD j "") then swapAt sortedTypes i j
  else sortedTypes

/-- The inner loop `for j := i + 1; j < len(sortedTypes); j++` (lines 331-335). -/
def sortInnerLoop (sortedTypes : List String) (i : Nat) : List String :=
  (List.range' (i + 1) (sortedTypes.length - (i + 1))).foldl (sortInnerStep i) sortedTypes

/-- The outer loop `for i := 0; i < len(sortedTypes)-1; i++` (lines 330-336). -/
def sortTypes (sortedTypes : List String) : List String :=
  (List.range (sortedTypes.length - 1)).foldl sortInnerLoop sortedTypes

/-- The loop that collects the keys of `ResourceCounts` (lines 324-327). -/
def collectTypes (resourceCounts : List (String × Nat)) : List String :=
  resourceCounts.foldl (fun sortedTypes entry => sortedTypes ++ [entry.1]) []

/-! ## Rendering (`html_generator.go`)

A `strings.Builder` is the byte sequence written so far; `fmt.Sprintf` with `%s`, `%d`
and `%t` is the concatenation of the pieces of the format with the rendered arguments. -/

/-- The rendering `%d` of an integer. -/
def formatInt (n : Int) : GoString := goBytes (toString n)

/-- The rendering `%t` of a boolean. -/
def formatBool (b : Bool) : GoString := goBytes (if b then "true" else "false")

/-- The head of `generateStateOverviewHtml` (lines 298-315): the four summary items. -/
def overviewSummaryHtml (stateData : StateData) : GoString :=
  goBytes "<div class=\"summary\">\n\t\t<div class=\"summary-item\">\n\t\t\t<div class=\"summary-number\">" ++
  formatInt stateData.Resources.length ++
  goBytes "</div>\n\t\t\t<div class=\"summary-label\">Resources</div>\n\t\t</div>\n\t\t<div class=\"summary-item\">\n\t\t\t<div class=\"summary-number\">" ++
  formatInt stateData.Outputs.length ++
  goBytes "</div>\n\t\t\t<div class=\"summary-label\">Outputs</div>\n\t\t</div>\n\t\t<div class=\"summary-item\">\n\t\t\t<div class=\"summary-number\">" ++
  goBytes stateData.FormatVersion ++
  goBytes "</div>\n\t\t\t<div class=\"summary-label\">Format Version</div>\n\t\t</div>\n\t\t<div class=\"summary-item\">\n\t\t\t<div class=\"summary-number\">" ++
  goBytes stateData.TerraformVersion ++
  goBytes "</div>\n\t\t\t<div class=\"summary-label\">Terraform Version</div>\n\t\t</div>\n\t</div>"

/-- The row written for one resource type (lines 340-344). -/
def resourceTypeRowHtml (resourceType : String) (count : Nat) : GoString :=
  goBytes "\n\t\t\t\t<div style=\"padding: 5px 0; border-bottom: 1px solid #eee;\">\n\t\t\t\t\t<span style=\"font-weight: bold; color: #2c3e50;\">" ++
  goBytes resourceType ++
  goBytes ":</span>\n\t\t\t\t\t<span style=\"color: #3498db; margin-left: 10px;\">" ++
  formatInt count ++
  goBytes "</span>\n\t\t\t\t</div>"

/-- The function `generateStateOverviewHtml`. -/
def generateStateOverviewHtml (stateData : StateData) : GoString :=
  let html : GoString := []
  let html := html ++ overviewSummaryHtml stateData
  let html :=
    if stateData.ResourceCounts.length > 0 then
      let html := html ++ goBytes "<div style=\"margin-top: 20px;\">\n\t\t\t<h3>Resources by Type</h3>\n\t\t\t<div style=\"margin-top: 10px;\">"
      let sortedTypes := sortTypes (collectTypes stateData.ResourceCounts)
      let html :=
        sortedTypes.foldl
          (fun html resourceType =>
            let count := countAt stateData.ResourceCounts resourceType
            html ++ resourceTypeRowHtml resourceType count)
          html
      html ++ goBytes "</div></div>"
    else html
  html

/-- The head of `generateResourceAttributesHtml` (lines 395-411): type, provider and
schema version. -/
def resourceBasicInfoHtml (resource : Resource) : GoString :=
  goBytes "\n\t\t<div class=\"attribute-item\">\n\t\t\t<span class=\"attribute-key\">Type:</span>\n\t\t\t<span class=\"attribute-value\">" ++
  goBytes resource.Type_ ++
  goBytes "</span>\n\t\t</div>" ++
  goBytes "\n\t\t<div class=\"attribute-item\">\n\t\t\t<span class=\"attribute-key\">Provider:</span>\n\t\t\t<span class=\"attribute-value\">" ++
  goBytes resource.ProviderName ++
  goBytes "</span>\n\t\t</div>" ++
  goBytes "\n\t\t<div class=\"attribute-item\">\n\t\t\t<span class=\"attribute-key\">Schema Version:</span>\n\t\t\t<span class=\"attribute-value\">" ++
  formatInt resource.SchemaVersion ++
  goBytes "</span>\n\t\t</div>"

/-- The item written for one attribute (lines 430-434), given the class, the key and the
value string. -/
def attributeItemHtml (cssClass key valueStr : GoString) : GoString :=
  goBytes "\n\t\t\t\t<div class=\"attribute-item " ++
  cssClass ++
  goBytes "\">\n\t\t\t\t\t<span class=\"attribute-key\">" ++
  key ++
  goBytes ":</span>\n\t\t\t\t\t<span class=\"attribute-value\">" ++
  valueStr ++
  goBytes "</span>\n\t\t\t\t</div>"

/-- The class chosen for one attribute (lines 420-423). -/
def attributeCssClass (unicodeToLower : Char → Char) (resource : Resource) (key : String)
    (value : JSON) : GoString :=
  let cssClass : GoString := goBytes ""
  if isSensitiveValue unicodeToLower key value resource.SensitiveValues then
    goBytes "attribute-sensitive"
  else cssClass

/-- The value string chosen for one attribute (lines 425-428). -/
def attributeValueStr (unicodeToLower : Char → Char) (formatFloat : Rat → GoString)
    (resource : Resource) (key : String) (value : JSON) : GoString :=
  let valueStr := formatValue formatFloat value
  if isSensitiveValue unicodeToLower key value resource.SensitiveValues then
    maskSensitiveValue value
  else valueStr

/-- The body of the loop over `resource.Values` (lines 420-434). -/
def resourceAttributeHtml (unicodeToLower : Char → Char) (formatFloat : Rat → GoString)
    (resource : Resource) (key : String) (value : JSON) : GoString :=
  let cssClass := attributeCssClass unicodeToLower resource key value
  let valueStr := attributeValueStr unicodeToLower formatFloat resource key value
  attributeItemHtml cssClass (goBytes key) valueStr

/-- The line written for one dependency (lines 445-448). -/
def dependencyItemHtml (dep : String) : GoString :=
  goBytes "\n\t\t\t\t<div class=\"attribute-item\">\n\t\t\t\t\t<span class=\"attribute-value\">" ++
  goBytes dep ++
  goBytes "</span>\n\t\t\t\t</div>"

/-- The function `generateResourceAttributesHtml`. -/
def generateResourceAttributesHtml (unicodeToLower : Char → Char)
    (formatFloat : Rat → GoString) (resource : Resource) : GoString :=
  let html : GoString := []
  let html := html ++ resourceBasicInfoHtml resource
  let html :=
    if resource.Values.length > 0 then
      let html := html ++ goBytes "<div class=\"attribute-item\">\n\t\t\t<span class=\"attribute-key\">Configuration:</span>\n\t\t</div>"
      resource.Values.foldl
        (fun html entry =>
          html ++ resourceAttributeHtml unicodeToLower formatFloat resource entry.1 entry.2)
        html
    else html
  let html :=
    if resource.DependsOn.length > 0 then
      let html := html ++ goBytes "<div class=\"attribute-item\">\n\t\t\t<span class=\"attribute-key\">Dependencies:</span>\n\t\t</div>"
      resource.DependsOn.foldl (fun html dep => html ++ dependencyItemHtml dep) html
    else html
  html

/-- The item written for one root-level output (lines 476-501), given the class, the
name, the rendered type, the value string and the rendered flag. -/
def outputItemHtml (cssClass name typeStr valueStr sensitiveStr : GoString) : GoString :=
  goBytes "\n\t\t\t<div class=\"resource-item " ++
  cssClass ++
  goBytes "\">\n\t\t\t\t<div class=\"collapsible\" onclick=\"toggleCollapsible(this)\">\n\t\t\t\t\t<div>Output</div>\n\t\t\t\t\t<div class=\"resource-address\">" ++
  name ++
  goBytes "</div>\n\t\t\t\t</div>\n\t\t\t\t<div class=\"collapsible-content\">\n\t\t\t\t\t<div class=\"resource-attributes\">\n\t\t\t\t\t\t<div class=\"attribute-item\">\n\t\t\t\t\t\t\t<span class=\"attribute-key\">Type:</span>\n\t\t\t\t\t\t\t<span class=\"attribute-value\">" ++
  typeStr ++
  goBytes "</span>\n\t\t\t\t\t\t</div>\n\t\t\t\t\t\t<div class=\"attribute-item " ++
  cssClass ++
  goBytes "\">\n\t\t\t\t\t\t\t<span class=\"attribute-key\">Value:</span>\n\t\t\t\t\t\t\t<span class=\"attribute-value\">" ++
  valueStr ++
  goBytes "</span>\n\t\t\t\t\t\t</div>\n\t\t\t\t\t\t<div class=\"attribute-item\">\n\t\t\t\t\t\t\t<span class=\"attribute-key\">Sensitive:</span>\n\t\t\t\t\t\t\t<span class=\"attribute-value\">" ++
  sensitiveStr ++
  goBytes "</span>\n\t\t\t\t\t\t</div>\n\t\t\t\t\t</div>\n\t\t\t\t</div>\n\t\t\t</div>"

/-- The class chosen for one output (lines 465-468, and 592-595 for a module-level
output). -/
def outputCssClass (sensitive : Bool) : GoString :=
  let cssClass : GoString := goBytes ""
  if sensitive then goBytes "attribute-sensitive" else cssClass

/-- The value string chosen for one output (lines 470-473, and 597-600 for a
module-level output). -/
def outputValueStr (formatFloat : Rat → GoString) (sensitive : Bool) (value : JSON) :
    GoString :=
  let valueStr := formatValue formatFloat value
  if sensitive then maskSensitiveValue value else valueStr

/-- The body of the loop over `stateData.Outputs` (lines 465-501). -/
def outputHtml (formatFloat : Rat → GoString) (output : Output) : GoString :=
  let cssClass := outputCssClass output.Sensitive
  let valueStr := outputValueStr formatFloat output.Sensitive output.Value
  outputItemHtml cssClass (goBytes output.Name) (formatValue formatFloat output.Type_)
    valueStr (formatBool output.Sensitive)

/-- The function `generateOutputsHtml`. -/
def generateOutputsHtml (formatFloat : Rat → GoString) (stateData : StateData) : GoString :=
  if stateData.Outputs.length = 0 then goBytes "<p>No outputs found in state.</p>"
  else
    let html : GoString := []
    let html := html ++ goBytes "<div>"
    let html :=
      stateData.Outputs.foldl (fun html output => html ++ outputHtml formatFloat output) html
    let html := html ++ goBytes "</div>"
    html

/-- The item written for one module-level output (lines 602-606), given the class, the
name and the value string. -/
def moduleOutputItemHtml (cssClass name valueStr : GoString) : GoString :=
  goBytes "\n\t\t\t\t<div class=\"attribute-item " ++
  cssClass ++
  goBytes "\" style=\"margin-left: 20px;\">\n\t\t\t\t\t<span class=\"attribute-key\">" ++
  name ++
  goBytes ":</span>\n\t\t\t\t\t<span class=\"attribute-value\">" ++
  valueStr ++
  goBytes "</span>\n\t\t\t\t</div>"

/-- The body of the loop over `module.Outputs` in `generateModuleHtml` (lines 592-606). -/
def moduleOutputHtml (formatFloat : Rat → GoString) (name : String) (output : OutputValue) :
    GoString :=
  let cssClass := outputCssClass output.Sensitive
  let valueStr := outputValueStr formatFloat output.Sensitive output.Value
  moduleOutputItemHtml cssClass (goBytes name) valueStr

/-- The outputs section of `generateModuleHtml` (lines 586-608). -/
def moduleOutputsHtml (formatFloat : Rat → GoString) (module : Module) : GoString :=
  if module.Outputs.length > 0 then
    module.Outputs.foldl
      (fun html entry => html ++ moduleOutputHtml formatFloat entry.1 entry.2)
      (goBytes "<div class=\"attribute-item\">\n\t\t\t<span class=\"attribute-key\">Outputs:</span>\n\t\t</div>")
  else []

/-! ## The output path (`main.go`, lines 47-52) -/

/-- The choice of `finalOutputFile` from the values of the flags `-o` and
`--output-html-path`. -/
def finalOutputFile (outputFile outputFileLong : String) : String :=
  let finalOutputFile := outputFile
  if outputFileLong != "state-visualization.html" &&
      outputFile == "state-visualization.html" then
    outputFileLong
  else finalOutputFile

/-! ## Definitions used to state the properties -/

/-- The module address read by `parseModules` (lines 277-279). -/
def moduleAddress (moduleMap : JMap) : String :=
  match asString (mapGet moduleMap "address") with
  | some address => address
  | none => ""

/-- The state after the two version fields have been read (lines 75-87). -/
def headerState (stateMap : JMap) : StateData :=
  let state : StateData := { ResourceCounts := [] }
  let state :=
    match asString (mapGet stateMap "format_version") with
    | some formatVersion => { state with FormatVersion := formatVersion }
    | none => state
  match asString (mapGet stateMap "terraform_version") with
  | some terraformVersion => { state with TerraformVersion := terraformVersion }
  | none => state

/-- The elements of a JSON array that are objects, in order. -/
def objectsOf (xs : List JSON) : List JMap :=
  xs.filterMap (fun x => match x with
    | .obj m => some m
    | _ => none)

mutual
/-- Depth-first pre-order listing of a module, in the words of the specification: a
module's own resources, then each child module recursively, in array order. -/
def preorderResources : Module → List Resource
  | .mk _ resources _ childModules => resources ++ preorderResourcesList childModules
/-- Depth-first pre-order listing of a sequence of modules, one after the other. -/
def preorderResourcesList : List Module → List Resource
  | [] => []
  | m :: rest => preorderResources m ++ preorderResourcesList rest
end

/-- The counts obtained by `counts[resourceTypeKey(r)]++` for each `r` in turn. -/
def countAll (counts : List (String × Nat)) (resources : List Resource) : List (String × Nat) :=
  resources.foldl (fun counts r => incrCount counts (resourceTypeKey r)) counts

/-- The object `values.root_module` of a document, when there is one. -/
def rootModuleData (stateMap : JMap) : Option JMap :=
  match asMap (mapGet stateMap "values") with
  | some valuesData => asMap (mapGet valuesData "root_module")
  | none => none

/-- The resource objects declared directly in the root module of a document: the
object elements of `values.root_module.resources`, in array order. -/
def declaredRootResourceObjects (stateMap : JMap) : List JMap :=
  match rootModuleData stateMap with
  | some rootModule =>
    match asArray (mapGet rootModule "resources") with
    | some resourcesData => objectsOf resourcesData
    | none => []
  | none => []

/-- The resources declared directly in the root module of a document, in array order. -/
def declaredRootResources (stateMap : JMap) : List Resource :=
  (declaredRootResourceObjects stateMap).map parseResource

/-- The array `values.root_module.child_modules` of a document (empty when absent). -/
def rootChildModulesData (stateMap : JMap) : List JSON :=
  match rootModuleData stateMap with
  | some rootModule =>
    match asArray (mapGet rootModule "child_modules") with
    | some childModulesData => childModulesData
    | none => []
  | none => []

/-- The state once `values.outputs` has been read (lines 75-124). -/
def stateAfterOutputs (stateMap : JMap) : StateData :=
  match asMap (mapGet stateMap "values") with
  | some valuesData =>
    match asMap (mapGet valuesData "outputs") with
    | some outputsData => outputsData.foldl parseOutputStep (headerState stateMap)
    | none => headerState stateMap
  | none => headerState stateMap

/-- The state that `parseStateData` returns on an object, given the parsed child
modules of the root. -/
def builtState (stateMap : JMap) (modules : List Module) : StateData :=
  { stateAfterOutputs stateMap with
    Resources := declaredRootResources stateMap ++ preorderResourcesList modules
    ResourceCounts := countAll [] (declaredRootResources stateMap ++ preorderResourcesList modules)
    RootModule := { ChildModules := modules } }

/-- A state document whose module tree has depth 3 (root, child, grandchild), each
module holding one resource. -/
def depth3Document : JSON :=
  .obj [("format_version", .str "1.0"),
    ("values", .obj [("root_module", .obj [
      ("resources", .arr [.obj [("address", .str "aws_vpc.main"), ("mode", .str "managed"),
        ("type", .str "aws_vpc"), ("name", .str "main")]]),
      ("child_modules", .arr [.obj [("address", .str "module.net"),
        ("resources", .arr [.obj [("address", .str "module.net.aws_subnet.a"),
          ("mode", .str "managed"), ("type", .str "aws_subnet"), ("name", .str "a")]]),
        ("child_modules", .arr [.obj [("address", .str "module.net.module.dns"),
          ("resources", .arr [.obj [("address", .str "module.net.module.dns.data.aws_zone.z"),
            ("mode", .str "data"), ("type", .str "aws_zone"), ("name", .str "z")]])]])]])])])]

/-- The sum of all values of a `map[string]int`. -/
def sumCounts (counts : List (String × Nat)) : Nat := (counts.map Prod.snd).sum

/-- The string elements of a JSON array, in order, duplicates kept. -/
def stringElements (xs : List JSON) : List String :=
  xs.filterMap (fun x => match x with
    | .str s => some s
    | _ => none)

/-- The value of a document field expected to be a string: the string when the key is
present with a string value, the empty string otherwise. -/
def stringField (m : JMap) (k : String) : String :=
  match mapGet m k with
  | some (.str s) => s
  | _ => ""

/-- The value of a document field expected to be an object: its bindings when the key is
present with an object value, the empty mapping otherwise. -/
def objectField (m : JMap) (k : String) : JMap :=
  match mapGet m k with
  | some (.obj o) => o
  | _ => []

/-- The value of a document field expected to be an array: its elements when the key is
present with an array value, the empty sequence otherwise. -/
def arrayField (m : JMap) (k : String) : List JSON :=
  match mapGet m k with
  | some (.arr xs) => xs
  | _ => []

/-- The object `values.outputs` of a document (empty when absent). -/
def declaredOutputs (stateMap : JMap) : JMap :=
  objectField (objectField stateMap "values") "outputs"

/-- The Output described by one entry of `values.outputs`: the key as name, the entry's
"sensitive" when it is a boolean and false otherwise, and the raw "type" and "value"
(null when absent). -/
def outputOfEntry (name : String) (outputMap : JMap) : Output :=
  { Name := name
    Sensitive :=
      match mapGet outputMap "sensitive" with
      | some (.bool sensitive) => sensitive
      | _ => false
    Type_ :=
      match mapGet outputMap "type" with
      | some outputType => outputType
      | none => .null
    Value :=
      match mapGet outputMap "value" with
      | some value => value
      | none => .null }

/-- One Output for each entry whose value is an object, none for the others. -/
def expectedOutputs (outputsData : JMap) : List Output :=
  outputsData.filterMap (fun entry => match entry.2 with
    | .obj outputMap => some (outputOfEntry entry.1 outputMap)
    | _ => none)

/-- A state document with one resource and one output declared in the root module, and
no child module. -/
def rootOnlyStateMap : JMap :=
  [("values", .obj [("root_module", .obj [
    ("resources", .arr [.obj [("address", .str "aws_vpc.main"), ("mode", .str "managed"),
      ("type", .str "aws_vpc"), ("name", .str "main")]]),
    ("outputs", .obj [("vpc_id", .obj [("value", .str "vpc-1")])])])])]

/-- A state document with three entries under `values.outputs`, one of which is not an
object. -/
def outputsStateMap : JMap :=
  [("values", .obj [("outputs", .obj [
    ("vpc_id", .obj [("value", .str "vpc-1"), ("type", .str "string")]),
    ("db_password", .obj [("sensitive", .bool true), ("value", .str "hunter2")]),
    ("note", .str "not an output")])])]

/-- One pass of the inner loop, as a function of the element held at position `i`, the
elements already visited and the elements still to visit. -/
def innerPass : String → List String → List String → List String
  | x, done, [] => x :: done
  | x, done, y :: rest =>
    if stringGt x y then innerPass y (done ++ [x]) rest else innerPass x (done ++ [y]) rest

/-- The classifier of C26, in the words of the claim: `isSensitiveValue` with the
vocabulary cut down to its 7 entries password, secret, key, token, credential,
certificate and ca_cert. -/
def isSensitiveValueShort (unicodeToLower : Char → Char) (key : String)
    (sensitiveValues : JMap) : Bool :=
  match mapGet sensitiveValues key with
  | some _ => true
  | none =>
    ["password", "secret", "key", "token", "credential", "certificate", "ca_cert"].any
      (fun sensitiveKey => stringsContains (stringsToLower unicodeToLower key) sensitiveKey)

/-- A chain of module objects nested `depth` levels deep, each holding one resource. -/
def nestedModulesData : Nat → List JSON
  | 0 => []
  | depth + 1 =>
    [.obj [("address", .str "module.m"), ("resources", .arr [.obj [("type", .str "t")]]),
      ("child_modules", .arr (nestedModulesData depth))]]

/-- The module tree that `nestedModulesData depth` describes. -/
def nestedModules : Nat → List Module
  | 0 => []
  | depth + 1 =>
    [Module.mk "module.m" [{ Type_ := "t" }] [] (nestedModules depth)]

mutual
/-- The number of levels of a module tree. -/
def moduleDepth : Module → Nat
  | .mk _ _ _ childModules => modulesDepth childModules + 1
/-- The number of levels of the deepest of a sequence of module trees. -/
def modulesDepth : List Module → Nat
  | [] => 0
  | m :: rest => max (moduleDepth m) (modulesDepth rest)
end

/-- A resource with a plain attribute, an attribute whose name is in the vocabulary, an
attribute with an explicit marker and an array attribute, and one dependency. -/
def exampleResource : Resource :=
  { Type_ := "aws_db_instance"
    ProviderName := "registry.terraform.io/hashicorp/aws"
    SchemaVersion := 2
    Values := [("region", .str "eu-west-1"), ("DB_Password", .str "hunter2-secret"),
      ("endpoint", .str "db.example.com"), ("ports", .arr [.str "a", .str "b", .str "c"])]
    SensitiveValues := [("endpoint", .bool true)]
    DependsOn := ["aws_vpc.main"] }

/-- Two root-level outputs: one whose name is in the vocabulary but is not flagged, and
one that is flagged sensitive. -/
def exampleOutputs : List Output :=
  [{ Name := "db_password", Sensitive := false, Type_ := .str "string",
     Value := .str "hunter2-secret" },
   { Name := "vpc_id", Sensitive := true, Type_ := .str "string",
     Value := .str "vpc-0123456789" }]

/-- A module with the same two outputs. -/
def exampleModule : Module :=
  Module.mk "module.m" []
    [("db_password", { Sensitive := false, Value := .str "hunter2-secret" }),
     ("vpc_id", { Sensitive := true, Value := .str "vpc-0123456789" })] []

/-- A state with four resources of three types and one output. -/
def exampleState : StateData :=
  { FormatVersion := "1.0"
    TerraformVersion := "1.5.7"
    Resources := [{ Type_ := "aws_vpc" }, { Mode := "data", Type_ := "aws_ami" },
      { Type_ := "aws_subnet" }, { Type_ := "aws_subnet" }]
    Outputs := [{ Name := "vpc_id" }]
    ResourceCounts := [("aws_vpc", 1), ("data.aws_ami", 1), ("aws_subnet", 2)] }

/-! ## Totality of the parser -/

theorem parseModules_nil (p : String) : parseModules [] p = .ok [] := by
  rw [parseModules]

theorem parseModules_cons_obj (moduleMap : JMap) (rest : List JSON) (p : String) :
    parseModules (.obj moduleMap :: rest) p =
      match asArray (mapGet moduleMap "child_modules") with
      | some childModulesData =>
        match parseModules childModulesData (moduleAddress moduleMap) with
        | .error err =>
          .error ("parsing child modules for " ++ moduleAddress moduleMap ++ ": " ++ err)
        | .ok childModules =>
          match parseModules rest p with
          | .error err => .error err
          | .ok modules =>
            .ok (Module.mk (moduleAddress moduleMap)
              (match asArray (mapGet moduleMap "resources") with
                | some resourcesData => parseModuleResources resourcesData
                | none => [])
              (match asMap (mapGet moduleMap "outputs") with
                | some outputsData => parseModuleOutputs outputsData
                | none => [])
              childModules :: modules)
      | none =>
        match parseModules rest p with
        | .error err => .error err
        | .ok modules =>
          .ok (Module.mk (moduleAddress moduleMap)
            (match asArray (mapGet moduleMap "resources") with
              | some resourcesData => parseModuleResources resourcesData
              | none => [])
            (match asMap (mapGet moduleMap "outputs") with
              | some outputsData => parseModuleOutputs outputsData
              | none => [])
            [] :: modules) := by
  rw [parseModules]
  split <;> rename_i h <;> simp only [h, moduleAddress]

theorem parseModules_cons_skip (x : JSON) (rest : List JSON) (p : String)
    (hx : ∀ moduleMap, x ≠ .obj moduleMap) :
    parseModules (x :: rest) p = parseModules rest p := by
  rw [parseModules]
  intro moduleMap h
  exact absurd h (hx moduleMap)

theorem parseModules_ok (modulesData : List JSON) (p : String) :
    ∃ modules, parseModules modulesData p = .ok modules := by
  induction modulesData, p using parseModules.induct with
  | case1 p => exact ⟨[], parseModules_nil p⟩
  | case2 p moduleMap rest address childModulesData h err herr ih =>
    obtain ⟨cm, hcm⟩ := ih
    rw [hcm] at herr
    cases herr
  | case3 p moduleMap rest address childModulesData h cm hcm err herr ih1 ih2 =>
    obtain ⟨ms, hms⟩ := ih2
    rw [hms] at herr
    cases herr
  | case4 p moduleMap rest address childModulesData h cm hcm ms hms ih1 ih2 =>
    have hcm' : parseModules childModulesData (moduleAddress moduleMap) = .ok cm := hcm
    rw [parseModules_cons_obj]
    simp only [h, hcm', hms]
    exact ⟨_, rfl⟩
  | case5 p moduleMap rest h err herr ih =>
    obtain ⟨ms, hms⟩ := ih
    rw [hms] at herr
    cases herr
  | case6 p moduleMap rest h ms hms ih =>
    rw [parseModules_cons_obj]
    simp only [h, hms]
    exact ⟨_, rfl⟩
  | case7 p head rest hne ih =>
    rw [parseModules_cons_skip head rest p (fun m e => hne m e)]
    exact ih

theorem parseRootModule_ok (rootModuleData : JMap) (state : StateData) :
    ∃ state', parseRootModule rootModuleData state = .ok state' := by
  unfold parseRootModule
  cases hc : asArray (mapGet rootModuleData "child_modules") with
  | none => exact ⟨_, rfl⟩
  | some childModulesData =>
    obtain ⟨ms, hms⟩ := parseModules_ok childModulesData ""
    simp only [hms]
    exact ⟨_, rfl⟩

theorem parseValues_ok (valuesData : JMap) (state : StateData) :
    ∃ state', parseValues valuesData state = .ok state' := by
  unfold parseValues
  cases hr : asMap (mapGet valuesData "root_module") with
  | none => exact ⟨_, rfl⟩
  | some rootModuleData =>
    obtain ⟨st, hst⟩ := parseRootModule_ok rootModuleData
      (match asMap (mapGet valuesData "outputs") with
        | some outputsData => outputsData.foldl parseOutputStep state
        | none => state)
    simp only [hst]
    exact ⟨_, rfl⟩

theorem parseStateData_obj (stateMap : JMap) :
    parseStateData (.obj stateMap) =
      match asMap (mapGet stateMap "values") with
      | some valuesData =>
        match parseValues valuesData (headerState stateMap) with
        | .error err => .error ("parsing values: " ++ err)
        | .ok state => .ok state
      | none => .ok (headerState stateMap) := rfl

theorem parseStateData_obj_ok (stateMap : JMap) :
    ∃ state, parseStateData (.obj stateMap) = .ok state := by
  rw [parseStateData_obj]
  cases hv : asMap (mapGet stateMap "values") with
  | none => exact ⟨_, rfl⟩
  | some valuesData =>
    obtain ⟨st, hst⟩ := parseValues_ok valuesData (headerState stateMap)
    simp only [hst]
    exact ⟨_, rfl⟩

/-- C1. `parseStateData` fails exactly on the inputs that are not JSON objects: on
`null`, every boolean, number, string and array it returns the error
"invalid state data format" (and so no state), and on every JSON object, whatever its
fields hold, it returns a state and no error. -/
theorem parseStateData_error_iff_not_object :
    parseStateData .null = .error "invalid state data format" ∧
    (∀ b, parseStateData (.bool b) = .error "invalid state data format") ∧
    (∀ f, parseStateData (.num f) = .error "invalid state data format") ∧
    (∀ s, parseStateData (.str s) = .error "invalid state data format") ∧
    (∀ xs, parseStateData (.arr xs) = .error "invalid state data format") ∧
    (∀ stateMap, ∃ state, parseStateData (.obj stateMap) = .ok state) :=
  ⟨rfl, fun _ => rfl, fun _ => rfl, fun _ => rfl, fun _ => rfl, parseStateData_obj_ok⟩

/-! ## Flattening: what the recursive walk appends -/

theorem foldl_addResourceToState (resources : List Resource) (state : StateData) :
    resources.foldl addResourceToState state =
      { state with
        Resources := state.Resources ++ resources
        ResourceCounts := countAll state.ResourceCounts resources } := by
  induction resources generalizing state with
  | nil => simp [countAll]
  | cons r rest ih =>
    rw [List.foldl_cons, ih]
    simp [addResourceToState, countAll]

theorem countAll_append (counts : List (String × Nat)) (xs ys : List Resource) :
    countAll counts (xs ++ ys) = countAll (countAll counts xs) ys := by
  simp [countAll, List.foldl_append]

mutual
theorem addModuleResourcesToState_eq :
    ∀ (module : Module) (state : StateData),
      addModuleResourcesToState module state =
        (preorderResources module).foldl addResourceToState state
  | .mk _ resources _ childModules, state => by
    rw [addModuleResourcesToState, preorderResources, List.foldl_append,
      addChildModulesToState_eq childModules]
theorem addChildModulesToState_eq :
    ∀ (modules : List Module) (state : StateData),
      addChildModulesToState modules state =
        (preorderResourcesList modules).foldl addResourceToState state
  | [], state => by rw [addChildModulesToState, preorderResourcesList, List.foldl_nil]
  | m :: rest, state => by
    rw [addChildModulesToState, preorderResourcesList, List.foldl_append,
      addModuleResourcesToState_eq m, addChildModulesToState_eq rest]
end

theorem foldl_addModuleResourcesToState (modules : List Module) (state : StateData) :
    modules.foldl (fun state module => addModuleResourcesToState module state) state =
      (preorderResourcesList modules).foldl addResourceToState state := by
  induction modules generalizing state with
  | nil => simp [preorderResourcesList]
  | cons m rest ih =>
    rw [List.foldl_cons, ih, preorderResourcesList, List.foldl_append,
      addModuleResourcesToState_eq]

theorem parseRootResource_eq_parseResource (resourceMap : JMap) :
    parseRootResource resourceMap = parseResource resourceMap := rfl

theorem foldl_parseRootResourceStep (resourcesData : List JSON) (state : StateData) :
    resourcesData.foldl parseRootResourceStep state =
      ((objectsOf resourcesData).map parseResource).foldl addResourceToState state := by
  induction resourcesData generalizing state with
  | nil => simp [objectsOf]
  | cons x rest ih =>
    rw [List.foldl_cons, ih]
    cases x <;> simp [objectsOf, parseRootResourceStep, parseRootResource_eq_parseResource]

/-! ## The state built from a document -/

theorem parseOutputStep_frame (state : StateData) (entry : String × JSON) :
    (parseOutputStep state entry).Resources = state.Resources ∧
    (parseOutputStep state entry).ResourceCounts = state.ResourceCounts ∧
    (parseOutputStep state entry).RootModule = state.RootModule := by
  unfold parseOutputStep
  split <;> simp

theorem foldl_parseOutputStep_frame (outputsData : JMap) (state : StateData) :
    (outputsData.foldl parseOutputStep state).Resources = state.Resources ∧
    (outputsData.foldl parseOutputStep state).ResourceCounts = state.ResourceCounts ∧
    (outputsData.foldl parseOutputStep state).RootModule = state.RootModule := by
  induction outputsData generalizing state with
  | nil => simp
  | cons e rest ih =>
    rw [List.foldl_cons]
    obtain ⟨h1, h2, h3⟩ := ih (parseOutputStep state e)
    obtain ⟨g1, g2, g3⟩ := parseOutputStep_frame state e
    exact ⟨h1.trans g1, h2.trans g2, h3.trans g3⟩

theorem headerState_frame (stateMap : JMap) :
    (headerState stateMap).Resources = [] ∧
    (headerState stateMap).Outputs = [] ∧
    (headerState stateMap).ResourceCounts = [] ∧
    (headerState stateMap).RootModule = {} := by
  unfold headerState
  split <;> split <;> simp

theorem stateAfterOutputs_frame (stateMap : JMap) :
    (stateAfterOutputs stateMap).Resources = [] ∧
    (stateAfterOutputs stateMap).ResourceCounts = [] ∧
    (stateAfterOutputs stateMap).RootModule = {} := by
  obtain ⟨h1, _, h3, h4⟩ := headerState_frame stateMap
  unfold stateAfterOutputs
  split
  · split
    · rename_i outputsData _
      obtain ⟨g1, g2, g3⟩ := foldl_parseOutputStep_frame outputsData (headerState stateMap)
      exact ⟨g1.trans h1, g2.trans h3, g3.trans h4⟩
    · exact ⟨h1, h3, h4⟩
  · exact ⟨h1, h3, h4⟩

theorem parseRootModule_eq (rootModule : JMap) (state : StateData) (modules : List Module)
    (hm : parseModules
      (match asArray (mapGet rootModule "child_modules") with
        | some childModulesData => childModulesData
        | none => []) "" = .ok modules)
    (h1 : state.Resources = []) (h2 : state.ResourceCounts = [])
    (h3 : state.RootModule = {}) :
    parseRootModule rootModule state = .ok
      { state with
        Resources :=
          (match asArray (mapGet rootModule "resources") with
            | some resourcesData => (objectsOf resourcesData).map parseResource
            | none => []) ++ preorderResourcesList modules
        ResourceCounts := countAll []
          ((match asArray (mapGet rootModule "resources") with
            | some resourcesData => (objectsOf resourcesData).map parseResource
            | none => []) ++ preorderResourcesList modules)
        RootModule := { ChildModules := modules } } := by
  obtain ⟨fv, tv, vals, res, outs, counts, rm⟩ := state
  simp only at h1 h2 h3
  subst h1 h2 h3
  unfold parseRootModule
  cases hc : asArray (mapGet rootModule "child_modules") with
  | none =>
    rw [hc] at hm
    rw [parseModules_nil] at hm
    injection hm with hm
    subst hm
    cases hr : asArray (mapGet rootModule "resources") with
    | none => simp [preorderResourcesList, countAll]
    | some resourcesData =>
      simp [preorderResourcesList, foldl_parseRootResourceStep, foldl_addResourceToState]
  | some childModulesData =>
    rw [hc] at hm
    simp only [hm]
    cases hr : asArray (mapGet rootModule "resources") with
    | none =>
      simp [foldl_addModuleResourcesToState, foldl_addResourceToState]
    | some resourcesData =>
      simp [foldl_parseRootResourceStep, foldl_addModuleResourcesToState,
        foldl_addResourceToState, countAll_append]

theorem state_eq_of_untouched (state : StateData) (h1 : state.Resources = [])
    (h2 : state.ResourceCounts = []) (h3 : state.RootModule = {}) :
    state = { state with Resources := [], ResourceCounts := [], RootModule := {} } := by
  obtain ⟨fv, tv, vals, res, outs, counts, rm⟩ := state
  simp only at h1 h2 h3
  subst h1 h2 h3
  rfl

theorem parseStateData_obj_eq (stateMap : JMap) :
    ∃ modules, parseModules (rootChildModulesData stateMap) "" = .ok modules ∧
      parseStateData (.obj stateMap) = .ok (builtState stateMap modules) := by
  obtain ⟨modules, hm⟩ := parseModules_ok (rootChildModulesData stateMap) ""
  refine ⟨modules, hm, ?_⟩
  obtain ⟨h1, h2, h3⟩ := stateAfterOutputs_frame stateMap
  rw [parseStateData_obj]
  unfold builtState declaredRootResources declaredRootResourceObjects
  unfold rootChildModulesData at hm
  unfold rootModuleData at hm ⊢
  unfold stateAfterOutputs at h1 h2 h3 ⊢
  cases hv : asMap (mapGet stateMap "values") with
  | none =>
    rw [hv] at hm h1 h2 h3
    simp only [parseModules_nil, Except.ok.injEq] at hm
    subst hm
    simp only [preorderResourcesList, List.append_nil, countAll, List.foldl_nil]
    exact congrArg Except.ok (state_eq_of_untouched _ h1 h2 h3)
  | some valuesData =>
    rw [hv] at hm h1 h2 h3
    simp only at hm h1 h2 h3 ⊢
    unfold parseValues
    cases hr : asMap (mapGet valuesData "root_module") with
    | none =>
      rw [hr] at hm
      simp only [parseModules_nil, Except.ok.injEq] at hm
      subst hm
      simp only [preorderResourcesList, List.append_nil, countAll, List.foldl_nil]
      exact congrArg Except.ok (state_eq_of_untouched _ h1 h2 h3)
    | some rootModule =>
      rw [hr] at hm
      simp only at hm ⊢
      rw [parseRootModule_eq rootModule _ modules hm h1 h2 h3]
      cases asArray (mapGet rootModule "resources") <;> rfl

/-! ## Flattening order and totals -/

theorem parseStateData_depth3 :
    ∃ state, parseStateData depth3Document = .ok state ∧
      state.Resources =
        [{ Address := "aws_vpc.main", Mode := "managed", Type_ := "aws_vpc", Name := "main" },
         { Address := "module.net.aws_subnet.a", Mode := "managed", Type_ := "aws_subnet",
           Name := "a" },
         { Address := "module.net.module.dns.data.aws_zone.z", Mode := "data",
           Type_ := "aws_zone", Name := "z" }] := by
  obtain ⟨modules, hm, hs⟩ := parseStateData_obj_eq
    [("format_version", .str "1.0"),
    ("values", .obj [("root_module", .obj [
      ("resources", .arr [.obj [("address", .str "aws_vpc.main"), ("mode", .str "managed"),
        ("type", .str "aws_vpc"), ("name", .str "main")]]),
      ("child_modules", .arr [.obj [("address", .str "module.net"),
        ("resources", .arr [.obj [("address", .str "module.net.aws_subnet.a"),
          ("mode", .str "managed"), ("type", .str "aws_subnet"), ("name", .str "a")]]),
        ("child_modules", .arr [.obj [("address", .str "module.net.module.dns"),
          ("resources", .arr [.obj [("address", .str "module.net.module.dns.data.aws_zone.z"),
            ("mode", .str "data"), ("type", .str "aws_zone"), ("name", .str "z")]])]])]])])])]
  refine ⟨_, hs, ?_⟩
  simp [rootChildModulesData, rootModuleData, mapGet, List.lookup, asMap, asArray,
    parseModules_cons_obj, parseModules_nil, moduleAddress, asString] at hm
  subst hm
  simp [builtState, declaredRootResources, declaredRootResourceObjects, rootModuleData, mapGet,
    List.lookup, asMap, asArray, objectsOf, parseResource, asString, asFloat64,
    preorderResourcesList, preorderResources, parseModuleResources]

theorem builtState_fields (stateMap : JMap) (modules : List Module) :
    (builtState stateMap modules).Resources =
      declaredRootResources stateMap ++ preorderResourcesList modules ∧
    (builtState stateMap modules).ResourceCounts =
      countAll [] (declaredRootResources stateMap ++ preorderResourcesList modules) ∧
    (builtState stateMap modules).RootModule.ChildModules = modules :=
  ⟨rfl, rfl, rfl⟩

/-- C2. For every state document (a JSON object), the flat list `state.Resources`
returned by `parseStateData` is the resources declared directly in the root module, in
array order, followed by the depth-first pre-order listing of the parsed child-module
tree (each module's own resources, then its child modules recursively, in array order).
In particular the depth-3 document root -> child -> grandchild with one resource each
flattens to exactly its three resources in that order. -/
theorem resources_are_preorder_flattening :
    (∀ stateMap : JMap, ∃ state,
      parseStateData (.obj stateMap) = .ok state ∧
      parseModules (rootChildModulesData stateMap) "" = .ok state.RootModule.ChildModules ∧
      state.Resources =
        declaredRootResources stateMap ++
          preorderResourcesList state.RootModule.ChildModules) ∧
    (∃ state, parseStateData depth3Document = .ok state ∧
      state.Resources =
        [{ Address := "aws_vpc.main", Mode := "managed", Type_ := "aws_vpc", Name := "main" },
         { Address := "module.net.aws_subnet.a", Mode := "managed", Type_ := "aws_subnet",
           Name := "a" },
         { Address := "module.net.module.dns.data.aws_zone.z", Mode := "data",
           Type_ := "aws_zone", Name := "z" }]) := by
  refine ⟨fun stateMap => ?_, parseStateData_depth3⟩
  obtain ⟨modules, hm, hs⟩ := parseStateData_obj_eq stateMap
  exact ⟨_, hs, hm, rfl⟩

mutual
theorem countModuleResources_eq :
    ∀ module : Module, countModuleResources module = (preorderResources module).length
  | .mk _ resources _ childModules => by
    rw [countModuleResources, preorderResources, List.length_append,
      countChildModules_eq childModules]
theorem countChildModules_eq :
    ∀ (modules : List Module) (count : Nat),
      countChildModules modules count = count + (preorderResourcesList modules).length
  | [], count => by rw [countChildModules, preorderResourcesList, List.length_nil, Nat.add_zero]
  | m :: rest, count => by
    rw [countChildModules, preorderResourcesList, List.length_append,
      countChildModules_eq rest, countModuleResources_eq m, Nat.add_assoc]
end

theorem sum_countModuleResources (modules : List Module) :
    (modules.map countModuleResources).sum = (preorderResourcesList modules).length := by
  induction modules with
  | nil => simp [preorderResourcesList]
  | cons m rest ih =>
    simp [preorderResourcesList, countModuleResources_eq, ih]

/-- C3. For every state document, `len(state.Resources)` is the number of resource
objects declared directly in the root module plus the sum of `countModuleResources(m)`
over the child modules `m` of the root, where the child modules are those parsed from
the document. -/
theorem resources_length_eq_module_totals (stateMap : JMap) :
    ∃ state, parseStateData (.obj stateMap) = .ok state ∧
      parseModules (rootChildModulesData stateMap) "" = .ok state.RootModule.ChildModules ∧
      state.Resources.length =
        (declaredRootResourceObjects stateMap).length +
          (state.RootModule.ChildModules.map countModuleResources).sum := by
  obtain ⟨modules, hm, hs⟩ := parseStateData_obj_eq stateMap
  refine ⟨_, hs, hm, ?_⟩
  obtain ⟨h1, _, h3⟩ := builtState_fields stateMap modules
  rw [h1, h3, sum_countModuleResources, List.length_append, declaredRootResources,
    List.length_map]

/-! ## The counts -/

theorem sumCounts_incrCount (counts : List (String × Nat)) (k : String) :
    sumCounts (incrCount counts k) = sumCounts counts + 1 := by
  induction counts with
  | nil => simp [incrCount, sumCounts]
  | cons kv rest ih =>
    obtain ⟨k', n⟩ := kv
    unfold incrCount
    split
    · simp [sumCounts]; omega
    · simp only [sumCounts, List.map_cons, List.sum_cons] at ih ⊢
      omega

theorem keys_incrCount (counts : List (String × Nat)) (k : String) :
    (incrCount counts k).map Prod.fst =
      if k ∈ counts.map Prod.fst then counts.map Prod.fst else counts.map Prod.fst ++ [k] := by
  induction counts with
  | nil => simp [incrCount]
  | cons kv rest ih =>
    obtain ⟨k', n⟩ := kv
    unfold incrCount
    by_cases h : k = k'
    · simp [h]
    · have h' : (k == k') = false := by simpa using h
      simp only [h', Bool.false_eq_true, if_false, List.map_cons, ih, List.mem_cons, h, false_or]
      split <;> simp

theorem nodup_keys_incrCount (counts : List (String × Nat)) (k : String)
    (h : (counts.map Prod.fst).Nodup) : ((incrCount counts k).map Prod.fst).Nodup := by
  rw [keys_incrCount]
  split
  · exact h
  · rename_i hk
    rw [List.nodup_append]
    refine ⟨h, List.nodup_singleton k, ?_⟩
    intro a ha hb
    simp only [List.mem_singleton] at hb
    subst hb
    exact hk ha

theorem countAll_invariants (resources : List Resource) (counts : List (String × Nat))
    (h : (counts.map Prod.fst).Nodup) :
    ((countAll counts resources).map Prod.fst).Nodup ∧
    sumCounts (countAll counts resources) = sumCounts counts + resources.length := by
  induction resources generalizing counts with
  | nil => exact ⟨h, rfl⟩
  | cons r rest ih =>
    obtain ⟨h1, h2⟩ := ih (incrCount counts (resourceTypeKey r))
      (nodup_keys_incrCount counts _ h)
    refine ⟨h1, ?_⟩
    simp only [countAll, List.foldl_cons, List.length_cons] at h2 ⊢
    rw [h2, sumCounts_incrCount]
    omega

/-- C4. For every state document parsed by `parseStateData`, the keys of
`state.ResourceCounts` are pairwise distinct (it is a map) and the sum of all its values
equals `len(state.Resources)`. -/
theorem sum_resourceCounts_eq_length (stateMap : JMap) :
    ∃ state, parseStateData (.obj stateMap) = .ok state ∧
      (state.ResourceCounts.map Prod.fst).Nodup ∧
      sumCounts state.ResourceCounts = state.Resources.length := by
  obtain ⟨modules, _, hs⟩ := parseStateData_obj_eq stateMap
  refine ⟨_, hs, ?_⟩
  obtain ⟨h1, h2, _⟩ := builtState_fields stateMap modules
  rw [h1, h2]
  have := countAll_invariants
    (declaredRootResources stateMap ++ preorderResourcesList modules) [] List.nodup_nil
  simpa [sumCounts] using this

theorem countAt_incrCount (counts : List (String × Nat)) (k k' : String) :
    countAt (incrCount counts k) k' = countAt counts k' + (if k = k' then 1 else 0) := by
  induction counts with
  | nil =>
    by_cases h : k = k'
    · simp [incrCount, countAt, List.lookup, h]
    · have h' : (k' == k) = false := by simpa using fun e => h e.symm
      simp [incrCount, countAt, List.lookup, h, h']
  | cons kv rest ih =>
    obtain ⟨k0, n⟩ := kv
    unfold incrCount
    by_cases h0 : k = k0
    · subst h0
      by_cases h : k = k'
      · subst h
        simp [countAt, List.lookup]
      · have h' : (k' == k) = false := by simpa using fun e => h e.symm
        simp [countAt, List.lookup, h, h']
    · have h0' : (k == k0) = false := by simpa using h0
      simp only [h0', Bool.false_eq_true, if_false]
      by_cases h1 : k' = k0
      · subst h1
        have : ¬ k = k' := h0
        simp [countAt, List.lookup, this]
      · have h1' : (k' == k0) = false := by simpa using h1
        simp only [countAt, List.lookup, h1'] at ih ⊢
        exact ih

theorem countAt_countAll (resources : List Resource) (counts : List (String × Nat))
    (k : String) :
    countAt (countAll counts resources) k =
      countAt counts k + resources.countP (fun r => resourceTypeKey r == k) := by
  induction resources generalizing counts with
  | nil => simp [countAll]
  | cons r rest ih =>
    have := ih (incrCount counts (resourceTypeKey r))
    simp only [countAll, List.foldl_cons] at this ⊢
    rw [this, countAt_incrCount, List.countP_cons]
    by_cases h : resourceTypeKey r = k
    · simp [h]; omega
    · simp [h]

/-- C5. For every state document and every key `k`, `state.ResourceCounts[k]` is the
number of resources `r` of `state.Resources` (root module and nested modules alike)
whose `resourceTypeKey` is `k`; and `resourceTypeKey(r)` is `r.Type` when `r.Mode` is
"managed" or empty, and "data." + `r.Type` when `r.Mode` is "data". -/
theorem resourceCounts_eq_count_by_key :
    (∀ (stateMap : JMap) (k : String), ∃ state,
      parseStateData (.obj stateMap) = .ok state ∧
      state.Resources =
        declaredRootResources stateMap ++
          preorderResourcesList state.RootModule.ChildModules ∧
      countAt state.ResourceCounts k =
        state.Resources.countP (fun r => resourceTypeKey r == k)) ∧
    (∀ r : Resource, (r.Mode = "managed" ∨ r.Mode = "") → resourceTypeKey r = r.Type_) ∧
    (∀ r : Resource, r.Mode = "data" → resourceTypeKey r = "data." ++ r.Type_) := by
  refine ⟨fun stateMap k => ?_, ?_, ?_⟩
  · obtain ⟨modules, _, hs⟩ := parseStateData_obj_eq stateMap
    refine ⟨_, hs, rfl, ?_⟩
    obtain ⟨h1, h2, _⟩ := builtState_fields stateMap modules
    rw [h1, h2, countAt_countAll]
    simp [countAt, List.lookup]
  · intro r h
    rcases h with h | h <;> simp [resourceTypeKey, h]
  · intro r h
    simp [resourceTypeKey, h]

/-- Witness for C5: the two mode rules at concrete resources, and the count of the key
"data.aws_zone" in the depth-3 document. -/
theorem resourceCounts_eq_count_by_key_witness :
    resourceTypeKey { Mode := "managed", Type_ := "aws_vpc" } = "aws_vpc" ∧
    resourceTypeKey { Mode := "", Type_ := "aws_vpc" } = "aws_vpc" ∧
    resourceTypeKey { Mode := "data", Type_ := "aws_zone" } = "data." ++ "aws_zone" :=
  ⟨resourceCounts_eq_count_by_key.2.1 { Mode := "managed", Type_ := "aws_vpc" }
      (Or.inl rfl),
   resourceCounts_eq_count_by_key.2.1 { Mode := "", Type_ := "aws_vpc" } (Or.inr rfl),
   resourceCounts_eq_count_by_key.2.2 { Mode := "data", Type_ := "aws_zone" } rfl⟩

/-- C6 as stated fails: a resource with an absent mode is counted under its plain type,
not under "data." + type; the same holds for any mode other than "data". -/
theorem resourceTypeKey_nonmanaged_counterexample :
    (parseResource [("type", .str "aws_instance")]).Mode = "" ∧
    (parseResource [("type", .str "aws_instance")]).Mode ≠ "managed" ∧
    resourceTypeKey (parseResource [("type", .str "aws_instance")]) = "aws_instance" ∧
    resourceTypeKey (parseResource [("type", .str "aws_instance")]) ≠
      "data." ++ (parseResource [("type", .str "aws_instance")]).Type_ ∧
    (addResourceToState {} (parseResource [("type", .str "aws_instance")])).ResourceCounts =
      [("aws_instance", 1)] ∧
    resourceTypeKey (parseResource [("type", .str "aws_instance"), ("mode", .str "ephemeral")]) =
      "aws_instance" := by
  refine ⟨rfl, by decide, by decide, by decide, by decide, by decide⟩

/-- C6, amended. For every parsed resource the key under which it is counted in
`ResourceCounts` is "data." + type when its mode is exactly "data", and its type for
every other mode (including "managed", an absent or empty mode and any other string);
recording the resource raises the count of that key by one and of no other key. -/
theorem resourceTypeKey_by_mode (state : StateData) (r : Resource) :
    (r.Mode = "data" → resourceTypeKey r = "data." ++ r.Type_) ∧
    (r.Mode ≠ "data" → resourceTypeKey r = r.Type_) ∧
    countAt (addResourceToState state r).ResourceCounts (resourceTypeKey r) =
      countAt state.ResourceCounts (resourceTypeKey r) + 1 ∧
    (∀ k, k ≠ resourceTypeKey r →
      countAt (addResourceToState state r).ResourceCounts k = countAt state.ResourceCounts k) := by
  refine ⟨fun h => by simp [resourceTypeKey, h], fun h => by simp [resourceTypeKey, h], ?_, ?_⟩
  · simp [addResourceToState, countAt_incrCount]
  · intro k hk
    have : ¬ resourceTypeKey r = k := fun e => hk e.symm
    simp [addResourceToState, countAt_incrCount, this]

/-- Witness for the amended C6, at a data source, a managed resource and a resource
without mode. -/
theorem resourceTypeKey_by_mode_witness :
    resourceTypeKey { Mode := "data", Type_ := "aws_ami" } = "data." ++ "aws_ami" ∧
    resourceTypeKey { Mode := "", Type_ := "aws_instance" } = "aws_instance" ∧
    countAt (addResourceToState {} { Mode := "", Type_ := "aws_instance" }).ResourceCounts
      "data.aws_instance" = 0 :=
  ⟨(resourceTypeKey_by_mode {} { Mode := "data", Type_ := "aws_ami" }).1 rfl,
   (resourceTypeKey_by_mode {} { Mode := "", Type_ := "aws_instance" }).2.1 (by decide),
   (resourceTypeKey_by_mode {} { Mode := "", Type_ := "aws_instance" }).2.2.2
      "data.aws_instance" (by decide)⟩

/-- C7. For every JSON object without a "values" key, or whose "values" is not an
object, `parseStateData` succeeds and the returned state has an empty Resources list, an
empty Outputs list, an empty ResourceCounts mapping and a root module without child
modules. -/
theorem parseStateData_without_values (stateMap : JMap)
    (h : ∀ valuesData, mapGet stateMap "values" ≠ some (.obj valuesData)) :
    ∃ state, parseStateData (.obj stateMap) = .ok state ∧
      state.Resources = [] ∧ state.Outputs = [] ∧ state.ResourceCounts = [] ∧
      state.RootModule.ChildModules = [] := by
  have hv : asMap (mapGet stateMap "values") = none := by
    cases hg : mapGet stateMap "values" with
    | none => rfl
    | some v =>
      cases v with
      | obj valuesData => exact absurd hg (h valuesData)
      | _ => rfl
  obtain ⟨h1, h2, h3, h4⟩ := headerState_frame stateMap
  refine ⟨headerState stateMap, ?_, h1, h2, h3, ?_⟩
  · rw [parseStateData_obj, hv]
  · rw [h4]

/-- Witness for C7: a document that only carries the two version strings, and whose
"values" is an array. -/
theorem parseStateData_without_values_witness :
    (∀ valuesData, mapGet [("format_version", .str "1.0"), ("values", .arr [])] "values" ≠
      some (.obj valuesData)) ∧
    ∃ state, parseStateData (.obj [("format_version", .str "1.0"), ("values", .arr [])]) =
        .ok state ∧
      state.Resources = [] ∧ state.Outputs = [] ∧ state.ResourceCounts = [] ∧
      state.RootModule.ChildModules = [] :=
  ⟨fun valuesData h => by simp [mapGet, List.lookup] at h,
   parseStateData_without_values [("format_version", .str "1.0"), ("values", .arr [])]
     (fun valuesData h => by simp [mapGet, List.lookup] at h)⟩

/-! ## Per-field extraction -/

theorem appendDependsOn_eq (resource : Resource) (dependsOn : List JSON) :
    appendDependsOn resource dependsOn =
      { resource with DependsOn := resource.DependsOn ++ stringElements dependsOn } := by
  induction dependsOn generalizing resource with
  | nil => simp [appendDependsOn, stringElements]
  | cons x rest ih =>
    have hstep : ∀ r : Resource, appendDependsOn r (x :: rest) =
        appendDependsOn
          (match x with
            | .str depStr => { r with DependsOn := r.DependsOn ++ [depStr] }
            | _ => r) rest := fun _ => rfl
    rw [hstep, ih]
    cases x <;> simp [stringElements]

theorem asString_eq (m : JMap) (k : String) :
    (asString (mapGet m k)).getD "" = stringField m k := by
  unfold stringField
  cases mapGet m k with
  | none => rfl
  | some v => cases v <;> rfl

theorem asMap_eq (m : JMap) (k : String) :
    (asMap (mapGet m k)).getD [] = objectField m k := by
  unfold objectField
  cases mapGet m k with
  | none => rfl
  | some v => cases v <;> rfl

theorem asArray_eq (m : JMap) (k : String) :
    (asArray (mapGet m k)).getD [] = arrayField m k := by
  unfold arrayField
  cases mapGet m k with
  | none => rfl
  | some v => cases v <;> rfl

theorem parseResource_eq (m : JMap) :
    parseResource m =
      { Address := stringField m "address"
        Mode := stringField m "mode"
        Type_ := stringField m "type"
        Name := stringField m "name"
        ProviderName := stringField m "provider_name"
        SchemaVersion :=
          match asFloat64 (mapGet m "schema_version") with
          | some schemaVersion => floatToInt schemaVersion
          | none => 0
        Values := objectField m "values"
        SensitiveValues := objectField m "sensitive_values"
        DependsOn := stringElements (arrayField m "depends_on") } := by
  simp only [← asString_eq, ← asMap_eq, ← asArray_eq]
  unfold parseResource
  cases asString (mapGet m "address") <;> cases asString (mapGet m "mode") <;>
    cases asString (mapGet m "type") <;> cases asString (mapGet m "name") <;>
    cases asString (mapGet m "provider_name") <;>
    cases asFloat64 (mapGet m "schema_version") <;>
    cases asMap (mapGet m "values") <;> cases asMap (mapGet m "sensitive_values") <;>
    cases asArray (mapGet m "depends_on") <;>
    simp [appendDependsOn_eq, stringElements]

/-- C8. For every resource object, the parsed `DependsOn` list is the list of the string
elements of its "depends_on" array, in the original order and with duplicates kept
(non-string elements are dropped, the others stay), and it is empty when "depends_on" is
missing or not an array; the inline parsing of the root module does the same, and the
result is a sublist of the array. -/
theorem dependsOn_eq_string_elements (resourceMap : JMap) :
    (parseResource resourceMap).DependsOn =
      (match mapGet resourceMap "depends_on" with
        | some (.arr dependsOn) => stringElements dependsOn
        | _ => []) ∧
    (parseRootResource resourceMap).DependsOn = (parseResource resourceMap).DependsOn ∧
    List.Sublist ((parseResource resourceMap).DependsOn.map JSON.str)
      (arrayField resourceMap "depends_on") := by
  refine ⟨?_, rfl, ?_⟩
  · rw [parseResource_eq]
    simp only [arrayField]
    cases mapGet resourceMap "depends_on" with
    | none => rfl
    | some v => cases v <;> rfl
  · rw [parseResource_eq]
    simp only
    generalize arrayField resourceMap "depends_on" = xs
    induction xs with
    | nil => simp [stringElements]
    | cons x rest ih =>
      cases x with
      | str s =>
        simpa [stringElements] using ih
      | _ =>
        simp only [stringElements, List.filterMap_cons] at ih ⊢
        exact List.Sublist.cons _ ih

/-- C9. `parseResource` extracts every field independently.  Each of Address, Mode,
Type, Name, ProviderName (strings), Values and SensitiveValues (objects) equals the
document's value when the key is present with the expected JSON type and is the zero
value otherwise; and when two resource objects agree on every key other than `k` (one
field was changed to any value or removed), every model field read from a key other than
`k` is the same in both parsed resources. -/
theorem parseResource_fields_independent :
    (∀ m : JMap,
      (parseResource m).Address = stringField m "address" ∧
      (parseResource m).Mode = stringField m "mode" ∧
      (parseResource m).Type_ = stringField m "type" ∧
      (parseResource m).Name = stringField m "name" ∧
      (parseResource m).ProviderName = stringField m "provider_name" ∧
      (parseResource m).Values = objectField m "values" ∧
      (parseResource m).SensitiveValues = objectField m "sensitive_values") ∧
    (∀ (m m' : JMap) (k : String), (∀ k', k' ≠ k → mapGet m k' = mapGet m' k') →
      (k ≠ "address" → (parseResource m).Address = (parseResource m').Address) ∧
      (k ≠ "mode" → (parseResource m).Mode = (parseResource m').Mode) ∧
      (k ≠ "type" → (parseResource m).Type_ = (parseResource m').Type_) ∧
      (k ≠ "name" → (parseResource m).Name = (parseResource m').Name) ∧
      (k ≠ "provider_name" →
        (parseResource m).ProviderName = (parseResource m').ProviderName) ∧
      (k ≠ "schema_version" →
        (parseResource m).SchemaVersion = (parseResource m').SchemaVersion) ∧
      (k ≠ "values" → (parseResource m).Values = (parseResource m').Values) ∧
      (k ≠ "sensitive_values" →
        (parseResource m).SensitiveValues = (parseResource m').SensitiveValues) ∧
      (k ≠ "depends_on" → (parseResource m).DependsOn = (parseResource m').DependsOn)) := by
  refine ⟨fun m => ?_, fun m m' k h => ?_⟩
  · rw [parseResource_eq]
    exact ⟨rfl, rfl, rfl, rfl, rfl, rfl, rfl⟩
  · rw [parseResource_eq, parseResource_eq]
    simp only [stringField, objectField, arrayField]
    refine ⟨?_, ?_, ?_, ?_, ?_, ?_, ?_, ?_, ?_⟩ <;>
      intro hk <;> rw [h _ (fun e => hk e.symm)]

/-- Witness for C9: turning "address" into a boolean leaves the other fields of the
parsed resource as they were. -/
theorem parseResource_fields_independent_witness :
    (parseResource [("address", .bool true), ("type", .str "aws_vpc"),
      ("depends_on", .arr [.str "aws_kms_key.k"])]).Type_ =
    (parseResource [("address", .str "aws_vpc.main"), ("type", .str "aws_vpc"),
      ("depends_on", .arr [.str "aws_kms_key.k"])]).Type_ :=
  (parseResource_fields_independent.2
    [("address", .bool true), ("type", .str "aws_vpc"),
      ("depends_on", .arr [.str "aws_kms_key.k"])]
    [("address", .str "aws_vpc.main"), ("type", .str "aws_vpc"),
      ("depends_on", .arr [.str "aws_kms_key.k"])]
    "address"
    (fun k' hk => by
      have hk' : (k' == "address") = false := by simpa using hk
      simp [mapGet, List.lookup, hk'])).2.2.1 (by decide)

/-! ## `parseModules`, element by element -/

theorem parseModuleResources_eq (resourcesData : List JSON) :
    parseModuleResources resourcesData = (objectsOf resourcesData).map parseResource := by
  have h : ∀ (xs : List JSON) (acc : List Resource),
      xs.foldl
        (fun resources resourceData =>
          match resourceData with
          | .obj resourceMap => resources ++ [parseResource resourceMap]
          | _ => resources) acc = acc ++ (objectsOf xs).map parseResource := by
    intro xs
    induction xs with
    | nil => intro acc; simp [objectsOf]
    | cons x rest ih =>
      intro acc
      rw [List.foldl_cons, ih]
      cases x <;> simp [objectsOf]
  simpa [parseModuleResources] using h resourcesData []

/-- C10. For every array of JSON values `parseModules` succeeds and returns one Module
per element that is a JSON object, in the array's order, the other elements being
skipped.  Each Module's Address is the element's "address" when that is a string and
empty otherwise, its Resources are `parseResource` applied to the object elements of its
"resources" array in order, and its ChildModules are the result of `parseModules` on its
"child_modules" array (so the same holds again for them, at any depth). -/
theorem parseModules_one_module_per_object (modulesData : List JSON) (parentAddress : String) :
    ∃ modules, parseModules modulesData parentAddress = .ok modules ∧
      List.Forall₂
        (fun (moduleMap : JMap) (module : Module) =>
          module.Address = stringField moduleMap "address" ∧
          module.Resources =
            (objectsOf (arrayField moduleMap "resources")).map parseResource ∧
          parseModules (arrayField moduleMap "child_modules") module.Address =
            .ok module.ChildModules)
        (objectsOf modulesData) modules := by
  induction modulesData with
  | nil => exact ⟨[], parseModules_nil _, by simp [objectsOf]⟩
  | cons x rest ih =>
    obtain ⟨ms, hms, hall⟩ := ih
    cases x with
    | obj moduleMap =>
      obtain ⟨cm, hcm⟩ :=
        parseModules_ok (arrayField moduleMap "child_modules") (moduleAddress moduleMap)
      have haddr : moduleAddress moduleMap = stringField moduleMap "address" := by
        rw [← asString_eq]
        unfold moduleAddress
        cases asString (mapGet moduleMap "address") <;> rfl
      have hres : (match asArray (mapGet moduleMap "resources") with
            | some resourcesData => parseModuleResources resourcesData
            | none => []) =
          (objectsOf (arrayField moduleMap "resources")).map parseResource := by
        rw [← asArray_eq]
        cases asArray (mapGet moduleMap "resources") with
        | none => simp [objectsOf]
        | some resourcesData => simp [parseModuleResources_eq]
      have hobj : objectsOf (JSON.obj moduleMap :: rest) = moduleMap :: objectsOf rest := by
        simp [objectsOf]
      rw [parseModules_cons_obj, hms, hobj]
      rw [← asArray_eq] at hcm
      cases hc : asArray (mapGet moduleMap "child_modules") with
      | none =>
        rw [hc] at hcm
        simp only [Option.getD_none, parseModules_nil, Except.ok.injEq] at hcm
        subst hcm
        refine ⟨_, rfl, List.Forall₂.cons ⟨haddr, hres, ?_⟩ hall⟩
        rw [← asArray_eq, hc]
        exact parseModules_nil _
      | some childModulesData =>
        rw [hc] at hcm
        simp only [Option.getD_some] at hcm
        simp only [hcm]
        refine ⟨_, rfl, List.Forall₂.cons ⟨haddr, hres, ?_⟩ hall⟩
        rw [← asArray_eq, hc]
        exact hcm
    | null => exact ⟨ms, by rw [parseModules_cons_skip _ _ _ (by intro m h; cases h), hms], hall⟩
    | bool b => exact ⟨ms, by rw [parseModules_cons_skip _ _ _ (by intro m h; cases h), hms], hall⟩
    | num f => exact ⟨ms, by rw [parseModules_cons_skip _ _ _ (by intro m h; cases h), hms], hall⟩
    | str s => exact ⟨ms, by rw [parseModules_cons_skip _ _ _ (by intro m h; cases h), hms], hall⟩
    | arr xs => exact ⟨ms, by rw [parseModules_cons_skip _ _ _ (by intro m h; cases h), hms], hall⟩

/-! ## The version strings -/

theorem headerState_versions (stateMap : JMap) :
    (headerState stateMap).FormatVersion = stringField stateMap "format_version" ∧
    (headerState stateMap).TerraformVersion = stringField stateMap "terraform_version" := by
  rw [← asString_eq, ← asString_eq]
  unfold headerState
  cases asString (mapGet stateMap "format_version") <;>
    cases asString (mapGet stateMap "terraform_version") <;> exact ⟨rfl, rfl⟩

theorem foldl_parseOutputStep_versions (outputsData : JMap) (state : StateData) :
    (outputsData.foldl parseOutputStep state).FormatVersion = state.FormatVersion ∧
    (outputsData.foldl parseOutputStep state).TerraformVersion = state.TerraformVersion := by
  induction outputsData generalizing state with
  | nil => exact ⟨rfl, rfl⟩
  | cons e rest ih =>
    rw [List.foldl_cons]
    obtain ⟨h1, h2⟩ := ih (parseOutputStep state e)
    have hstep : (parseOutputStep state e).FormatVersion = state.FormatVersion ∧
        (parseOutputStep state e).TerraformVersion = state.TerraformVersion := by
      unfold parseOutputStep
      split <;> exact ⟨rfl, rfl⟩
    exact ⟨h1.trans hstep.1, h2.trans hstep.2⟩

theorem stateAfterOutputs_versions (stateMap : JMap) :
    (stateAfterOutputs stateMap).FormatVersion = stringField stateMap "format_version" ∧
    (stateAfterOutputs stateMap).TerraformVersion =
      stringField stateMap "terraform_version" := by
  obtain ⟨h1, h2⟩ := headerState_versions stateMap
  unfold stateAfterOutputs
  split
  · split
    · rename_i outputsData _
      obtain ⟨g1, g2⟩ := foldl_parseOutputStep_versions outputsData (headerState stateMap)
      exact ⟨g1.trans h1, g2.trans h2⟩
    · exact ⟨h1, h2⟩
  · exact ⟨h1, h2⟩

/-- C11. For every JSON object input, `parseStateData` succeeds and
`state.FormatVersion` is the value of "format_version" when that key is present with a
string value and the empty string otherwise; likewise `state.TerraformVersion` for
"terraform_version".  A non-string value for either key causes no error. -/
theorem versions_are_string_fields (stateMap : JMap) :
    ∃ state, parseStateData (.obj stateMap) = .ok state ∧
      state.FormatVersion =
        (match mapGet stateMap "format_version" with
          | some (.str formatVersion) => formatVersion
          | _ => "") ∧
      state.TerraformVersion =
        (match mapGet stateMap "terraform_version" with
          | some (.str terraformVersion) => terraformVersion
          | _ => "") := by
  obtain ⟨modules, _, hs⟩ := parseStateData_obj_eq stateMap
  obtain ⟨h1, h2⟩ := stateAfterOutputs_versions stateMap
  exact ⟨_, hs, h1, h2⟩

/-! ## Module totals -/

/-- C18. For every module, `countModuleResources(module)` is the number of the module's
own resources plus the sum of `countModuleResources` over its child modules, and it is
the number of resources that `addModuleResourcesToState` appends to the flat list for
that module (the list it appends being the pre-order listing of the module). -/
theorem countModuleResources_eq_own_plus_children (module : Module) (state : StateData) :
    countModuleResources module =
      module.Resources.length + (module.ChildModules.map countModuleResources).sum ∧
    (addModuleResourcesToState module state).Resources =
      state.Resources ++ preorderResources module ∧
    (addModuleResourcesToState module state).Resources.length =
      state.Resources.length + countModuleResources module := by
  have happ : (addModuleResourcesToState module state).Resources =
      state.Resources ++ preorderResources module := by
    rw [addModuleResourcesToState_eq, foldl_addResourceToState]
  refine ⟨?_, happ, ?_⟩
  · cases module with
    | mk address resources outputs childModules =>
      rw [countModuleResources, countChildModules_eq, sum_countModuleResources]
      rfl
  · rw [happ, List.length_append, countModuleResources_eq]

/-! ## The sensitivity classifier -/

theorem bytesContain_iff_segment (s substr : GoString) :
    bytesContain s substr = true ↔ List.IsInfix substr s := by
  induction s with
  | nil =>
    rw [bytesContain, List.infix_nil]
    exact List.isEmpty_iff
  | cons b rest ih =>
    rw [bytesContain, Bool.or_eq_true, ih, List.infix_cons_iff, List.isPrefixOf_iff_prefix]

/-- C13. For every key present in the explicit sensitive-markers mapping,
`isSensitiveValue` returns true whatever the key's name, the attribute value and the
value stored under the key in the mapping: only presence is tested. -/
theorem isSensitiveValue_of_marker (unicodeToLower : Char → Char) (key : String)
    (value marker : JSON) (sensitiveValues : JMap)
    (h : mapGet sensitiveValues key = some marker) :
    isSensitiveValue unicodeToLower key value sensitiveValues = true := by
  unfold isSensitiveValue
  rw [h]

/-- Witness for C13: "region" is not in the vocabulary, and is classified sensitive when
the mapping holds `false` under it. -/
theorem isSensitiveValue_of_marker_witness :
    mapGet [("region", .bool false)] "region" = some (.bool false) ∧
    isSensitiveValue id "region" (.str "eu-west-1") [] = false ∧
    isSensitiveValue id "region" (.str "eu-west-1") [("region", .bool false)] = true :=
  ⟨rfl, rfl,
   isSensitiveValue_of_marker id "region" (.str "eu-west-1") (.bool false)
     [("region", .bool false)] rfl⟩

/-! ## Masking and formatting -/

theorem goBytes_ascii (cs : List Char) (h : ∀ c ∈ cs, c.toNat < 0x80) :
    goBytes (String.mk cs) = cs.map Char.toNat := by
  induction cs with
  | nil => rfl
  | cons c rest ih =>
    have hc : c.toNat < 0x80 := h c (List.mem_cons_self c rest)
    have hrest := ih (fun d hd => h d (List.mem_cons_of_mem c hd))
    simp only [goBytes, List.map_cons, List.flatten_cons] at hrest ⊢
    rw [hrest]
    simp [utf8EncodeChar, hc]

theorem goBytes_append (s t : String) : goBytes (s ++ t) = goBytes s ++ goBytes t := by
  simp [goBytes, String.data_append]

theorem toLower_toNat_of_lt (n : Nat) (h : n < 0x80) :
    (Char.ofNat n).toLower.toNat = if 0x41 ≤ n ∧ n ≤ 0x5A then n + 0x20 else n := by
  revert n
  decide

theorem toLower_toNat_ascii (c : Char) (h : c.toNat < 0x80) :
    c.toLower.toNat = if 0x41 ≤ c.toNat ∧ c.toNat ≤ 0x5A then c.toNat + 0x20 else c.toNat := by
  have := toLower_toNat_of_lt c.toNat h
  rwa [Char.ofNat_toNat] at this

theorem stringsToLower_data (unicodeToLower : Char → Char) (key : String) :
    (stringsToLower unicodeToLower key).data =
      key.data.map (fun c =>
        if c.toNat < 0x80 then
          Char.ofNat (if 0x41 ≤ c.toNat ∧ c.toNat ≤ 0x5A then c.toNat + 0x20 else c.toNat)
        else unicodeToLower c) := by
  unfold stringsToLower
  simp only
  apply List.map_congr_left
  intro c _
  by_cases h : c.toNat < 0x80
  · rw [if_pos h, if_pos h, ← toLower_toNat_ascii c h, Char.ofNat_toNat]
  · rw [if_neg h, if_neg h]

theorem goBytes_stringsToLower_ascii (unicodeToLower : Char → Char) (key : String)
    (h : ∀ c ∈ key.data, c.toNat < 0x80) :
    goBytes (stringsToLower unicodeToLower key) =
      key.data.map (fun c =>
        if 0x41 ≤ c.toNat ∧ c.toNat ≤ 0x5A then c.toNat + 0x20 else c.toNat) := by
  have hd : stringsToLower unicodeToLower key =
      String.mk (key.data.map (fun c => c.toLower)) := by
    unfold stringsToLower
    congr 1
    apply List.map_congr_left
    intro c hc
    rw [if_pos (h c hc)]
  rw [hd, goBytes_ascii]
  · rw [List.map_map]
    apply List.map_congr_left
    intro c hc
    exact toLower_toNat_ascii c (h c hc)
  · intro c hc
    obtain ⟨d, hd, rfl⟩ := List.mem_map.mp hc
    rw [toLower_toNat_ascii d (h d hd)]
    have := h d hd
    split <;> omega

/-- C12. `isSensitiveValue` returns true if and only if the key is present in the marker
mapping or the lower-cased key contains at least one of the 13 vocabulary substrings; the
result does not depend on the value argument.  "database_password" without marker is
sensitive, "region" without marker is not.  Lower-casing replaces every ASCII letter
`A`-`Z` by `a`-`z`, leaves the other ASCII characters and hands the rest to the Unicode
table, so that for an ASCII key the test is on the bytes of the key with 32 added to
those between 65 and 90: "API_KEY", "Database_Password" and "AuthToken" are sensitive, "REGION" is
not. -/
theorem isSensitiveValue_iff_marker_or_vocabulary (unicodeToLower : Char → Char)
    (key : String) (value : JSON) (sensitiveValues : JMap) :
    (isSensitiveValue unicodeToLower key value sensitiveValues = true ↔
      ((∃ marker, mapGet sensitiveValues key = some marker) ∨
        ∃ w ∈ ["password", "secret", "key", "token", "credential", "private_key",
            "public_key", "certificate", "ca_cert", "access_key", "secret_key", "api_key",
            "auth_token"],
          List.IsInfix (goBytes w) (goBytes (stringsToLower unicodeToLower key)))) ∧
    (∀ value', isSensitiveValue unicodeToLower key value' sensitiveValues =
      isSensitiveValue unicodeToLower key value sensitiveValues) ∧
    isSensitiveValue unicodeToLower "database_password" value [] = true ∧
    isSensitiveValue unicodeToLower "region" value [] = false ∧
    (stringsToLower unicodeToLower key).data =
      key.data.map (fun c =>
        if c.toNat < 0x80 then
          Char.ofNat (if 0x41 ≤ c.toNat ∧ c.toNat ≤ 0x5A then c.toNat + 0x20 else c.toNat)
        else unicodeToLower c) ∧
    ((∀ c ∈ key.data, c.toNat < 0x80) →
      (isSensitiveValue unicodeToLower key value sensitiveValues = true ↔
        ((∃ marker, mapGet sensitiveValues key = some marker) ∨
          ∃ w ∈ ["password", "secret", "key", "token", "credential", "private_key",
              "public_key", "certificate", "ca_cert", "access_key", "secret_key",
              "api_key", "auth_token"],
            List.IsInfix (goBytes w)
              (key.data.map (fun c =>
                if 0x41 ≤ c.toNat ∧ c.toNat ≤ 0x5A then c.toNat + 0x20 else c.toNat))))) ∧
    isSensitiveValue unicodeToLower "API_KEY" value [] = true ∧
    isSensitiveValue unicodeToLower "Database_Password" value [] = true ∧
    isSensitiveValue unicodeToLower "AuthToken" value [] = true ∧
    isSensitiveValue unicodeToLower "REGION" value [] = false ∧
    goBytes (stringsToLower unicodeToLower "API_KEY") = goBytes "api_key" := by
  have hiff : isSensitiveValue unicodeToLower key value sensitiveValues = true ↔
      ((∃ marker, mapGet sensitiveValues key = some marker) ∨
        ∃ w ∈ ["password", "secret", "key", "token", "credential", "private_key",
            "public_key", "certificate", "ca_cert", "access_key", "secret_key", "api_key",
            "auth_token"],
          List.IsInfix (goBytes w) (goBytes (stringsToLower unicodeToLower key))) := by
    unfold isSensitiveValue
    cases hm : mapGet sensitiveValues key with
    | some marker => simp
    | none =>
      simp only [List.any_eq_true, stringsContains, bytesContain_iff_segment]
      constructor
      · rintro ⟨w, hw, hc⟩
        exact Or.inr ⟨w, hw, hc⟩
      · rintro (⟨marker, hmk⟩ | ⟨w, hw, hc⟩)
        · cases hmk
        · exact ⟨w, hw, hc⟩
  refine ⟨hiff, fun _ => rfl, rfl, rfl, stringsToLower_data unicodeToLower key,
    fun hascii => ?_, rfl, rfl, rfl, rfl, rfl⟩
  rw [← goBytes_stringsToLower_ascii unicodeToLower key hascii]
  exact hiff

/-- Witness for C12: the ASCII key "API_KEY" is sensitive because its bytes, with 32
added to the upper-case ones, contain "api_key". -/
theorem isSensitiveValue_iff_marker_or_vocabulary_witness :
    (∀ c ∈ "API_KEY".data, c.toNat < 0x80) ∧
    List.IsInfix (goBytes "api_key")
      ("API_KEY".data.map (fun c =>
        if 0x41 ≤ c.toNat ∧ c.toNat ≤ 0x5A then c.toNat + 0x20 else c.toNat)) ∧
    isSensitiveValue id "API_KEY" .null [] = true :=
  ⟨by decide, by decide,
   ((isSensitiveValue_iff_marker_or_vocabulary id "API_KEY" .null []).2.2.2.2.2.1
      (by decide)).mpr (Or.inr ⟨"api_key", by decide, by decide⟩)⟩

/-- C14 as stated fails when characters and bytes differ: the string "ééééé" has 5
characters (and 10 bytes), and its mask is "éé...éé" instead of "***". -/
theorem maskSensitiveValue_short_string_counterexample :
    "ééééé".length = 5 ∧ (goBytes "ééééé").length = 10 ∧
    maskSensitiveValue (.str "ééééé") = goBytes "éé...éé" ∧
    maskSensitiveValue (.str "ééééé") ≠ goBytes "***" := by
  decide

/-- C14, amended. For every string value, with lengths and positions counted in bytes of
the UTF-8 encoding: `maskSensitiveValue` returns the first 4 bytes + "..." + the last 4
bytes when the string has more than 8 bytes, and the literal "***" when it has 8 bytes or
fewer.  For a string of ASCII characters these are its characters: the mask is the first
4 characters + "..." + the last 4 characters when it has more than 8 characters, and
"***" otherwise.  "abcdefghij" masks to "abcd...ghij" and "short" masks to "***". -/
theorem maskSensitiveValue_string (v : String) :
    ((goBytes v).length > 8 →
      maskSensitiveValue (.str v) =
        (goBytes v).take 4 ++ goBytes "..." ++ (goBytes v).drop ((goBytes v).length - 4)) ∧
    ((goBytes v).length ≤ 8 → maskSensitiveValue (.str v) = goBytes "***") ∧
    ((∀ c ∈ v.data, c.toNat < 0x80) →
      (v.length > 8 →
        maskSensitiveValue (.str v) =
          goBytes (String.mk (v.data.take 4) ++ "..." ++
            String.mk (v.data.drop (v.length - 4)))) ∧
      (v.length ≤ 8 → maskSensitiveValue (.str v) = goBytes "***")) ∧
    maskSensitiveValue (.str "abcdefghij") = goBytes "abcd...ghij" ∧
    maskSensitiveValue (.str "short") = goBytes "***" := by
  refine ⟨fun h => ?_, fun h => ?_, fun hascii => ?_, by decide, by decide⟩
  · simp only [maskSensitiveValue, if_pos h]
  · simp only [maskSensitiveValue, if_neg (Nat.not_lt.mpr h)]
  · have hb : goBytes v = v.data.map Char.toNat := goBytes_ascii v.data hascii
    have hlen : (goBytes v).length = v.length := by rw [hb, List.length_map]; rfl
    refine ⟨fun h => ?_, fun h => ?_⟩
    · have h' : (goBytes v).length > 8 := by omega
      simp only [maskSensitiveValue, if_pos h', goBytes_append]
      rw [goBytes_ascii (v.data.take 4) (fun c hc => hascii c (List.mem_of_mem_take hc)),
        goBytes_ascii (v.data.drop (v.length - 4))
          (fun c hc => hascii c (List.mem_of_mem_drop hc)),
        hlen, hb, List.map_take, List.map_drop]
    · have h' : ¬ (goBytes v).length > 8 := by omega
      simp only [maskSensitiveValue, if_neg h']

/-- Witness for the amended C14, at the ASCII string "abcdefghij". -/
theorem maskSensitiveValue_string_witness :
    (goBytes "abcdefghij").length > 8 ∧
    maskSensitiveValue (.str "abcdefghij") =
      (goBytes "abcdefghij").take 4 ++ goBytes "..." ++
        (goBytes "abcdefghij").drop ((goBytes "abcdefghij").length - 4) :=
  ⟨by decide, (maskSensitiveValue_string "abcdefghij").1 (by decide)⟩

/-- C15. For every non-string JSON value, `maskSensitiveValue` returns "[***]" for an
array of any length (the empty one included), the same with curly brackets for an object
of any size, and
"***" for every number, boolean and null: the result does not depend on the contents. -/
theorem maskSensitiveValue_non_string :
    (∀ xs, maskSensitiveValue (.arr xs) = goBytes "[***]") ∧
    maskSensitiveValue (.arr []) = goBytes "[***]" ∧
    (∀ kvs, maskSensitiveValue (.obj kvs) = goBytes "\x7b***\x7d") ∧
    (∀ f, maskSensitiveValue (.num f) = goBytes "***") ∧
    (∀ b, maskSensitiveValue (.bool b) = goBytes "***") ∧
    maskSensitiveValue .null = goBytes "***" :=
  ⟨fun _ => rfl, rfl, fun _ => rfl, fun _ => rfl, fun _ => rfl, rfl⟩

/-- C16 as stated fails when characters and bytes differ: a string of 60 characters "é"
(120 bytes) has at most 100 characters, and is cut to its first 50 characters followed
by "...". -/
theorem formatValue_long_string_counterexample :
    (String.mk (List.replicate 60 'é')).length = 60 ∧
    (goBytes (String.mk (List.replicate 60 'é'))).length = 120 ∧
    formatValue (fun _ => []) (.str (String.mk (List.replicate 60 'é'))) =
      goBytes (String.mk (List.replicate 50 'é') ++ "...") ∧
    formatValue (fun _ => []) (.str (String.mk (List.replicate 60 'é'))) ≠
      goBytes (String.mk (List.replicate 60 'é')) := by
  refine ⟨by decide, by decide, by decide, by decide⟩

/-- C16, amended. For every string value, with lengths and positions counted in bytes of
the UTF-8 encoding: `formatValue` returns the string unchanged when it has at most 100
bytes, and its first 100 bytes followed by "..." when it has more than 100 bytes.  For a
string of ASCII characters these are its characters: unchanged with at most 100
characters, the first 100 characters followed by "..." with more. -/
theorem formatValue_string (formatFloat : Rat → GoString) (v : String) :
    ((goBytes v).length ≤ 100 → formatValue formatFloat (.str v) = goBytes v) ∧
    ((goBytes v).length > 100 →
      formatValue formatFloat (.str v) = (goBytes v).take 100 ++ goBytes "...") ∧
    ((∀ c ∈ v.data, c.toNat < 0x80) →
      (v.length ≤ 100 → formatValue formatFloat (.str v) = goBytes v) ∧
      (v.length > 100 →
        formatValue formatFloat (.str v) =
          goBytes (String.mk (v.data.take 100) ++ "..."))) := by
  refine ⟨fun h => ?_, fun h => ?_, fun hascii => ?_⟩
  · simp only [formatValue, if_neg (Nat.not_lt.mpr h)]
  · simp only [formatValue, if_pos h]
  · have hb : goBytes v = v.data.map Char.toNat := goBytes_ascii v.data hascii
    have hlen : (goBytes v).length = v.length := by rw [hb, List.length_map]; rfl
    refine ⟨fun h => ?_, fun h => ?_⟩
    · have h' : ¬ (goBytes v).length > 100 := by omega
      simp only [formatValue, if_neg h']
    · have h' : (goBytes v).length > 100 := by omega
      simp only [formatValue, if_pos h', goBytes_append]
      rw [goBytes_ascii (v.data.take 100) (fun c hc => hascii c (List.mem_of_mem_take hc)),
        hb, List.map_take]

/-- Witness for the amended C16, at a short ASCII string. -/
theorem formatValue_string_witness :
    (goBytes "eu-west-1").length ≤ 100 ∧
    formatValue (fun _ => []) (.str "eu-west-1") = goBytes "eu-west-1" :=
  ⟨by decide, (formatValue_string (fun _ => []) "eu-west-1").1 (by decide)⟩

/-- C17. For every JSON value that is neither a string nor a number, `formatValue`
returns "true" or "false" for a boolean, "[]" for an empty array, "[N items]" with N the
number of elements for a non-empty array, the text "N fields" in curly brackets with N
the number of fields for every object (0 for the empty one), and "null" for null.  Two
arrays of the same length, and two objects with the same number of fields, render the same: the
contents do not appear. -/
theorem formatValue_non_string (formatFloat : Rat → GoString) :
    formatValue formatFloat (.bool true) = goBytes "true" ∧
    formatValue formatFloat (.bool false) = goBytes "false" ∧
    formatValue formatFloat (.arr []) = goBytes "[]" ∧
    (∀ x xs, formatValue formatFloat (.arr (x :: xs)) =
      goBytes ("[" ++ toString (x :: xs).length ++ " items]")) ∧
    (∀ kvs, formatValue formatFloat (.obj kvs) =
      goBytes ("\x7b" ++ toString kvs.length ++ " fields\x7d")) ∧
    formatValue formatFloat (.obj []) = goBytes "\x7b0 fields\x7d" ∧
    formatValue formatFloat .null = goBytes "null" ∧
    (∀ xs ys : List JSON, xs.length = ys.length →
      formatValue formatFloat (.arr xs) = formatValue formatFloat (.arr ys)) ∧
    (∀ kvs kvs' : JMap, kvs.length = kvs'.length →
      formatValue formatFloat (.obj kvs) = formatValue formatFloat (.obj kvs')) := by
  refine ⟨rfl, rfl, rfl, fun x xs => ?_, fun _ => rfl, rfl, rfl, fun xs ys h => ?_,
    fun kvs kvs' h => ?_⟩
  · simp [formatValue]
  · simp only [formatValue, h]
  · simp only [formatValue, h]

/-- Witness for C17: two arrays of three elements. -/
theorem formatValue_non_string_witness :
    formatValue (fun _ => []) (.arr [.null, .bool true, .str "a"]) =
      formatValue (fun _ => []) (.arr [.str "x", .str "y", .str "z"]) ∧
    formatValue (fun _ => []) (.arr [.str "x", .str "y", .str "z"]) = goBytes "[3 items]" :=
  ⟨(formatValue_non_string (fun _ => [])).2.2.2.2.2.2.2.1 [.null, .bool true, .str "a"]
      [.str "x", .str "y", .str "z"] rfl, by decide⟩

/-! ## Outputs and the root module -/

theorem parseOutputStep_eq (state : StateData) (entry : String × JSON) :
    parseOutputStep state entry =
      { state with Outputs := state.Outputs ++ expectedOutputs [entry] } := by
  obtain ⟨name, outputData⟩ := entry
  cases outputData with
  | obj outputMap =>
    simp only [parseOutputStep, expectedOutputs, List.filterMap_cons, List.filterMap_nil,
      outputOfEntry]
    cases hs : mapGet outputMap "sensitive" with
    | none =>
      cases mapGet outputMap "type" <;> cases mapGet outputMap "value" <;> rfl
    | some sensitive =>
      cases sensitive <;> cases mapGet outputMap "type" <;>
        cases mapGet outputMap "value" <;> rfl
  | _ => simp [parseOutputStep, expectedOutputs]

theorem expectedOutputs_cons (entry : String × JSON) (rest : JMap) :
    expectedOutputs (entry :: rest) = expectedOutputs [entry] ++ expectedOutputs rest := by
  have h : entry :: rest = [entry] ++ rest := rfl
  rw [h, expectedOutputs, List.filterMap_append]
  rfl

theorem foldl_parseOutputStep_outputs (outputsData : JMap) (state : StateData) :
    (outputsData.foldl parseOutputStep state).Outputs =
      state.Outputs ++ expectedOutputs outputsData := by
  induction outputsData generalizing state with
  | nil => simp [expectedOutputs]
  | cons e rest ih =>
    rw [List.foldl_cons, ih, parseOutputStep_eq, expectedOutputs_cons e rest,
      List.append_assoc]

theorem stateAfterOutputs_outputs (stateMap : JMap) :
    (stateAfterOutputs stateMap).Outputs = expectedOutputs (declaredOutputs stateMap) := by
  obtain ⟨_, h2, _, _⟩ := headerState_frame stateMap
  unfold stateAfterOutputs declaredOutputs
  rw [← asMap_eq stateMap "values"]
  cases asMap (mapGet stateMap "values") with
  | none => simpa [objectField, mapGet, expectedOutputs] using h2
  | some valuesData =>
    simp only [Option.getD_some]
    rw [← asMap_eq valuesData "outputs"]
    cases asMap (mapGet valuesData "outputs") with
    | none => simpa [expectedOutputs] using h2
    | some outputsData =>
      simp only [Option.getD_some]
      rw [foldl_parseOutputStep_outputs, h2, List.nil_append]

theorem names_expectedOutputs_sublist (outputsData : JMap) :
    List.Sublist ((expectedOutputs outputsData).map Output.Name)
      (outputsData.map Prod.fst) := by
  induction outputsData with
  | nil => simp [expectedOutputs]
  | cons e rest ih =>
    obtain ⟨name, outputData⟩ := e
    rw [expectedOutputs_cons]
    cases outputData with
    | obj outputMap =>
      simpa [expectedOutputs, outputOfEntry] using ih
    | _ =>
      simp only [expectedOutputs, List.filterMap_cons, List.filterMap_nil, List.nil_append,
        List.map_cons] at ih ⊢
      exact List.Sublist.cons _ ih

/-- C19. For every state document, `state.Outputs` holds exactly one Output for each
key of `values.outputs` whose value is a JSON object and none for the other keys, in the
order in which the mapping is ranged over.  The Output's Name is that key, its Sensitive
flag is the entry's "sensitive" when that is a boolean and false otherwise, and its Type
and Value are the entry's raw "type" and "value" (null when absent).  The keys of a
mapping being pairwise distinct, so are the names. -/
theorem outputs_one_per_object_entry (stateMap : JMap) :
    ∃ state, parseStateData (.obj stateMap) = .ok state ∧
      state.Outputs =
        (declaredOutputs stateMap).filterMap (fun entry => match entry.2 with
          | .obj outputMap => some
              { Name := entry.1
                Sensitive :=
                  match mapGet outputMap "sensitive" with
                  | some (.bool sensitive) => sensitive
                  | _ => false
                Type_ := (mapGet outputMap "type").getD .null
                Value := (mapGet outputMap "value").getD .null }
          | _ => none) ∧
      (((declaredOutputs stateMap).map Prod.fst).Nodup →
        (state.Outputs.map Output.Name).Nodup) := by
  obtain ⟨modules, _, hs⟩ := parseStateData_obj_eq stateMap
  have ho : (builtState stateMap modules).Outputs =
      expectedOutputs (declaredOutputs stateMap) := stateAfterOutputs_outputs stateMap
  refine ⟨_, hs, ?_, fun hnd => ?_⟩
  · rw [ho, expectedOutputs]
    congr 1
    funext entry
    cases entry.2 with
    | obj outputMap =>
      simp only [outputOfEntry]
      cases mapGet outputMap "type" <;> cases mapGet outputMap "value" <;> rfl
    | _ => rfl
  · rw [ho]
    exact List.Nodup.sublist (names_expectedOutputs_sublist _) hnd

/-- Witness for C19: a document with two output objects and one entry that is not an
object. -/
theorem outputs_one_per_object_entry_witness :
    ((declaredOutputs outputsStateMap).map Prod.fst).Nodup ∧
    ∃ state, parseStateData (.obj outputsStateMap) = .ok state ∧
      (state.Outputs.map Output.Name).Nodup :=
  ⟨by decide,
   (outputs_one_per_object_entry outputsStateMap).elim
     (fun state h => ⟨state, h.1, h.2.2 (by decide)⟩)⟩

/-- C20 as stated fails: for a document with one resource and one output declared in
the root module, `state.RootModule.Resources` and `state.RootModule.Outputs` are empty,
while the resources parsed from `values.root_module.resources` and the outputs of
`values.root_module.outputs` are not. -/
theorem rootModule_resources_counterexample :
    ∃ state, parseStateData (.obj rootOnlyStateMap) = .ok state ∧
      state.RootModule.Resources = [] ∧
      state.RootModule.Outputs = [] ∧
      declaredRootResources rootOnlyStateMap =
        [{ Address := "aws_vpc.main", Mode := "managed", Type_ := "aws_vpc",
           Name := "main" }] ∧
      state.RootModule.Resources ≠ declaredRootResources rootOnlyStateMap ∧
      parseModuleOutputs [("vpc_id", .obj [("value", .str "vpc-1")])] =
        [("vpc_id", { Value := .str "vpc-1" })] ∧
      state.RootModule.Outputs ≠
        parseModuleOutputs [("vpc_id", .obj [("value", .str "vpc-1")])] := by
  obtain ⟨modules, _, hs⟩ := parseStateData_obj_eq rootOnlyStateMap
  have hd : declaredRootResources rootOnlyStateMap =
      [{ Address := "aws_vpc.main", Mode := "managed", Type_ := "aws_vpc",
         Name := "main" }] := by
    simp [declaredRootResources, declaredRootResourceObjects, rootModuleData,
      rootOnlyStateMap, mapGet, List.lookup, asMap, asArray, objectsOf, parseResource,
      asString, asFloat64]
  have ho : parseModuleOutputs [("vpc_id", .obj [("value", .str "vpc-1")])] =
      [("vpc_id", { Value := .str "vpc-1" })] := by
    simp [parseModuleOutputs, setOutput, parseOutputValue, mapGet, List.lookup, asBool]
  refine ⟨_, hs, rfl, rfl, hd, ?_, ho, ?_⟩
  · rw [hd]
    exact (List.cons_ne_nil _ _).symm
  · rw [ho]
    exact (List.cons_ne_nil _ _).symm

/-- C20, amended. After `parseStateData`, the root Module of the State holds the child
modules parsed from `values.root_module.child_modules` and nothing else:
`state.RootModule.Resources` and `state.RootModule.Outputs` are always empty.  The
resources declared directly in the root module are the leading segment of the flat list
`state.Resources`. -/
theorem rootModule_holds_child_modules_only (stateMap : JMap) :
    ∃ state, parseStateData (.obj stateMap) = .ok state ∧
      state.RootModule.Resources = [] ∧
      state.RootModule.Outputs = [] ∧
      parseModules (rootChildModulesData stateMap) "" = .ok state.RootModule.ChildModules ∧
      List.IsPrefix (declaredRootResources stateMap) state.Resources := by
  obtain ⟨modules, hm, hs⟩ := parseStateData_obj_eq stateMap
  exact ⟨_, hs, rfl, rfl, hm, List.prefix_append _ _⟩

/-! ## The hand-written sort -/

theorem getD_append_cons (p r : List String) (x d : String) :
    (p ++ x :: r).getD p.length d = x := by
  induction p with
  | nil => rfl
  | cons a p ih => simpa using ih

theorem set_append_cons (p r : List String) (x z : String) :
    (p ++ x :: r).set p.length z = p ++ z :: r := by
  induction p with
  | nil => rfl
  | cons a p ih => simp [ih]

theorem sortInnerStep_at (p done rest : List String) (x y : String) :
    sortInnerStep p.length (p ++ x :: (done ++ y :: rest)) (p.length + 1 + done.length) =
      if stringGt x y then p ++ y :: (done ++ x :: rest)
      else p ++ x :: (done ++ y :: rest) := by
  have hj : p ++ x :: (done ++ y :: rest) = (p ++ x :: done) ++ y :: rest := by simp
  have hlen : (p ++ x :: done).length = p.length + 1 + done.length := by
    simp; omega
  have hgi : (p ++ x :: (done ++ y :: rest)).getD p.length "" = x := getD_append_cons _ _ _ _
  have hgj : (p ++ x :: (done ++ y :: rest)).getD (p.length + 1 + done.length) "" = y := by
    rw [hj, ← hlen]
    exact getD_append_cons _ _ _ _
  unfold sortInnerStep
  rw [hgi, hgj]
  split
  · unfold swapAt
    rw [hgi, hgj, set_append_cons]
    have hj' : p ++ y :: (done ++ y :: rest) = (p ++ y :: done) ++ y :: rest := by simp
    have hlen' : (p ++ y :: done).length = p.length + 1 + done.length := by
      simp; omega
    rw [hj', ← hlen', set_append_cons]
    simp
  · rfl

theorem foldl_sortInnerStep (rest : List String) :
    ∀ (p done : List String) (x : String),
      (List.range' (p.length + 1 + done.length) rest.length).foldl (sortInnerStep p.length)
        (p ++ x :: (done ++ rest)) = p ++ innerPass x done rest := by
  induction rest with
  | nil =>
    intro p done x
    simp [innerPass]
  | cons y rest ih =>
    intro p done x
    rw [List.length_cons, List.range'_succ, List.foldl_cons, sortInnerStep_at, innerPass]
    split
    · have := ih p (done ++ [x]) y
      simp only [List.length_append, List.length_singleton, List.append_assoc,
        List.singleton_append] at this
      rw [← this]
      rfl
    · have := ih p (done ++ [y]) x
      simp only [List.length_append, List.length_singleton, List.append_assoc,
        List.singleton_append] at this
      rw [← this]
      rfl

theorem sortInnerLoop_eq (p rest : List String) (x : String) :
    sortInnerLoop (p ++ x :: rest) p.length = p ++ innerPass x [] rest := by
  have h := foldl_sortInnerStep rest p [] x
  simp only [List.length_nil, Nat.add_zero, List.nil_append] at h
  unfold sortInnerLoop
  have hl : (p ++ x :: rest).length - (p.length + 1) = rest.length := by
    simp only [List.length_append, List.length_cons]
    omega
  rw [hl, h]

theorem stringGt_iff (a b : String) : stringGt a b = true ↔ goBytes b < goBytes a := by
  simp [stringGt]

theorem innerPass_spec (rest : List String) :
    ∀ (x : String) (done : List String), ∃ m r,
      innerPass x done rest = m :: r ∧
      List.Perm (m :: r) (x :: (done ++ rest)) ∧
      ((∀ z ∈ done, goBytes x ≤ goBytes z) → ∀ z ∈ r, goBytes m ≤ goBytes z) := by
  induction rest with
  | nil =>
    intro x done
    exact ⟨x, done, rfl, by simp, fun h => h⟩
  | cons y rest ih =>
    intro x done
    rw [innerPass]
    by_cases hgt : stringGt x y = true
    · rw [if_pos hgt]
      obtain ⟨m, r, he, hp, hm⟩ := ih y (done ++ [x])
      have hlt : goBytes y < goBytes x := (stringGt_iff x y).mp hgt
      refine ⟨m, r, he, hp.trans ?_, fun hd => hm ?_⟩
      · have h1 : List.Perm (y :: (done ++ [x] ++ rest)) (y :: x :: (done ++ rest)) := by
          refine List.Perm.cons y ?_
          simp only [List.append_assoc, List.singleton_append]
          exact List.perm_middle
        have h2 : List.Perm (x :: (done ++ y :: rest)) (x :: y :: (done ++ rest)) :=
          List.Perm.cons x List.perm_middle
        exact h1.trans ((List.Perm.swap x y _).trans h2.symm)
      · intro z hz
        rcases List.mem_append.mp hz with hz | hz
        · exact le_trans (le_of_lt hlt) (hd z hz)
        · rw [List.mem_singleton.mp hz]
          exact le_of_lt hlt
    · rw [if_neg hgt]
      obtain ⟨m, r, he, hp, hm⟩ := ih x (done ++ [y])
      have hle : goBytes x ≤ goBytes y := by
        have : ¬ goBytes y < goBytes x := fun h => hgt ((stringGt_iff x y).mpr h)
        exact not_lt.mp this
      refine ⟨m, r, he, hp.trans ?_, fun hd => hm ?_⟩
      · simp
      · intro z hz
        rcases List.mem_append.mp hz with hz | hz
        · exact hd z hz
        · rw [List.mem_singleton.mp hz]
          exact hle

theorem foldl_sortInnerLoop (k : Nat) :
    ∀ (p rest : List String), k ≤ rest.length →
      ∃ s rest',
        (List.range' p.length k).foldl sortInnerLoop (p ++ rest) = p ++ (s ++ rest') ∧
        s.length = k ∧
        List.Perm (s ++ rest') rest ∧
        List.Pairwise (fun a b => goBytes a ≤ goBytes b) s ∧
        (∀ a ∈ s, ∀ b ∈ rest', goBytes a ≤ goBytes b) := by
  induction k with
  | zero =>
    intro p rest _
    exact ⟨[], rest, rfl, rfl, List.Perm.refl _, List.Pairwise.nil, by simp⟩
  | succ k ih =>
    intro p rest hk
    cases rest with
    | nil => simp at hk
    | cons x t =>
      obtain ⟨m, r, he, hp, hm⟩ := innerPass_spec t x []
      have hmr : ∀ z ∈ r, goBytes m ≤ goBytes z := hm (by simp)
      have hlen : r.length = t.length := by
        have := hp.length_eq
        simpa using this
      obtain ⟨s, rest', hf, hs, hperm, hsorted, hsr⟩ :=
        ih (p ++ [m]) r (by rw [hlen]; simpa using hk)
      have hmem : ∀ z, z ∈ s ++ rest' → z ∈ r := fun z hz => hperm.subset hz
      refine ⟨m :: s, rest', ?_, by simp [hs], ?_, ?_, ?_⟩
      · rw [List.range'_succ, List.foldl_cons, sortInnerLoop_eq, he]
        have hl : (p ++ [m]).length = p.length + 1 := by simp
        rw [hl] at hf
        have hpm : p ++ m :: r = p ++ [m] ++ r := by simp
        rw [hpm, hf]
        simp
      · have h1 : List.Perm (m :: (s ++ rest')) (m :: r) := List.Perm.cons m hperm
        simpa using h1.trans (by simpa using hp)
      · exact List.Pairwise.cons
          (fun z hz => hmr z (hmem z (List.mem_append_left _ hz))) hsorted
      · intro a ha b hb
        rcases List.mem_cons.mp ha with ha | ha
        · rw [ha]
          exact hmr b (hmem b (List.mem_append_right _ hb))
        · exact hsr a ha b hb

theorem sortTypes_spec (sortedTypes : List String) :
    List.Perm (sortTypes sortedTypes) sortedTypes ∧
    List.Pairwise (fun a b => goBytes a ≤ goBytes b) (sortTypes sortedTypes) := by
  obtain ⟨s, rest', hf, hs, hperm, hsorted, hsr⟩ :=
    foldl_sortInnerLoop (sortedTypes.length - 1) [] sortedTypes (Nat.sub_le _ _)
  simp only [List.length_nil, List.nil_append] at hf
  have he : sortTypes sortedTypes = s ++ rest' := by
    rw [sortTypes, List.range_eq_range', hf]
  rw [he]
  refine ⟨hperm, ?_⟩
  rw [List.pairwise_append]
  refine ⟨hsorted, ?_, hsr⟩
  have hl : rest'.length ≤ 1 := by
    have := hperm.length_eq
    rw [List.length_append, hs] at this
    omega
  match rest', hl with
  | [], _ => exact List.Pairwise.nil
  | [z], _ => exact List.pairwise_singleton _ _

theorem collectTypes_eq (resourceCounts : List (String × Nat)) :
    collectTypes resourceCounts = resourceCounts.map Prod.fst := by
  have h : ∀ (xs : List (String × Nat)) (acc : List String),
      xs.foldl (fun sortedTypes entry => sortedTypes ++ [entry.1]) acc =
        acc ++ xs.map Prod.fst := by
    intro xs
    induction xs with
    | nil => intro acc; simp
    | cons e rest ih => intro acc; rw [List.foldl_cons, ih]; simp
  simpa [collectTypes] using h resourceCounts []


/-! ## Rendering of attributes and outputs -/

theorem foldl_append_html {α : Type} (f : α → GoString) (xs : List α) (html : GoString) :
    xs.foldl (fun html x => html ++ f x) html = html ++ (xs.map f).flatten := by
  induction xs generalizing html with
  | nil => simp
  | cons x rest ih =>
    rw [List.foldl_cons, ih]
    simp

theorem goBytes_empty : goBytes "" = [] := rfl

theorem generateResourceAttributesHtml_example (unicodeToLower : Char → Char)
    (formatFloat : Rat → GoString) :
    generateResourceAttributesHtml unicodeToLower formatFloat exampleResource =
      goBytes "\n\t\t<div class=\"attribute-item\">\n\t\t\t<span class=\"attribute-key\">Type:</span>\n\t\t\t<span class=\"attribute-value\">aws_db_instance</span>\n\t\t</div>\n\t\t<div class=\"attribute-item\">\n\t\t\t<span class=\"attribute-key\">Provider:</span>\n\t\t\t<span class=\"attribute-value\">registry.terraform.io/hashicorp/aws</span>\n\t\t</div>\n\t\t<div class=\"attribute-item\">\n\t\t\t<span class=\"attribute-key\">Schema Version:</span>\n\t\t\t<span class=\"attribute-value\">2</span>\n\t\t</div><div class=\"attribute-item\">\n\t\t\t<span class=\"attribute-key\">Configuration:</span>\n\t\t</div>\n\t\t\t\t<div class=\"attribute-item \">\n\t\t\t\t\t<span class=\"attribute-key\">region:</span>\n\t\t\t\t\t<span class=\"attribute-value\">eu-west-1</span>\n\t\t\t\t</div>\n\t\t\t\t<div class=\"attribute-item attribute-sensitive\">\n\t\t\t\t\t<span class=\"attribute-key\">DB_Password:</span>\n\t\t\t\t\t<span class=\"attribute-value\">hunt...cret</span>\n\t\t\t\t</div>\n\t\t\t\t<div class=\"attribute-item attribute-sensitive\">\n\t\t\t\t\t<span class=\"attribute-key\">endpoint:</span>\n\t\t\t\t\t<span class=\"attribute-value\">db.e....com</span>\n\t\t\t\t</div>\n\t\t\t\t<div class=\"attribute-item \">\n\t\t\t\t\t<span class=\"attribute-key\">ports:</span>\n\t\t\t\t\t<span class=\"attribute-value\">[3 items]</span>\n\t\t\t\t</div><div class=\"attribute-item\">\n\t\t\t<span class=\"attribute-key\">Dependencies:</span>\n\t\t</div>\n\t\t\t\t<div class=\"attribute-item\">\n\t\t\t\t\t<span class=\"attribute-value\">aws_vpc.main</span>\n\t\t\t\t</div>" := by
  have h1 : isSensitiveValue unicodeToLower "region" (.str "eu-west-1")
      [("endpoint", .bool true)] = false := rfl
  have h2 : isSensitiveValue unicodeToLower "DB_Password" (.str "hunter2-secret")
      [("endpoint", .bool true)] = true := rfl
  have h3 : isSensitiveValue unicodeToLower "endpoint" (.str "db.example.com")
      [("endpoint", .bool true)] = true := rfl
  have h4 : isSensitiveValue unicodeToLower "ports" (.arr [.str "a", .str "b", .str "c"])
      [("endpoint", .bool true)] = false := rfl
  have m2 : maskSensitiveValue (.str "hunter2-secret") = goBytes "hunt...cret" := by decide
  have m3 : maskSensitiveValue (.str "db.example.com") = goBytes "db.e....com" := by decide
  have f1 : formatValue formatFloat (.str "eu-west-1") = goBytes "eu-west-1" := rfl
  have f4 : formatValue formatFloat (.arr [.str "a", .str "b", .str "c"]) =
      goBytes "[3 items]" := rfl
  have hs : formatInt 2 = goBytes "2" := by decide
  simp only [generateResourceAttributesHtml, exampleResource, resourceBasicInfoHtml,
    resourceAttributeHtml, attributeCssClass, attributeValueStr, attributeItemHtml,
    dependencyItemHtml, List.foldl, h1, h2, h3, h4, m2, m3, f1, f4, hs, List.length_cons,
    List.length_nil, List.nil_append, goBytes_empty, List.append_nil, List.append_assoc,
    Nat.zero_add, gt_iff_lt, Nat.lt_add_left_iff_pos, Nat.lt_add_one, if_true,
    Bool.false_eq_true, if_false, Nat.zero_lt_succ, Nat.succ_pos, Nat.add_one_pos]
  simp only [← goBytes_append]
  simp only [String.reduceAppend]

theorem generateOutputsHtml_example (formatFloat : Rat → GoString) :
    generateOutputsHtml formatFloat { Outputs := exampleOutputs } =
      goBytes "<div>\n\t\t\t<div class=\"resource-item \">\n\t\t\t\t<div class=\"collapsible\" onclick=\"toggleCollapsible(this)\">\n\t\t\t\t\t<div>Output</div>\n\t\t\t\t\t<div class=\"resource-address\">db_password</div>\n\t\t\t\t</div>\n\t\t\t\t<div class=\"collapsible-content\">\n\t\t\t\t\t<div class=\"resource-attributes\">\n\t\t\t\t\t\t<div class=\"attribute-item\">\n\t\t\t\t\t\t\t<span class=\"attribute-key\">Type:</span>\n\t\t\t\t\t\t\t<span class=\"attribute-value\">string</span>\n\t\t\t\t\t\t</div>\n\t\t\t\t\t\t<div class=\"attribute-item \">\n\t\t\t\t\t\t\t<span class=\"attribute-key\">Value:</span>\n\t\t\t\t\t\t\t<span class=\"attribute-value\">hunter2-secret</span>\n\t\t\t\t\t\t</div>\n\t\t\t\t\t\t<div class=\"attribute-item\">\n\t\t\t\t\t\t\t<span class=\"attribute-key\">Sensitive:</span>\n\t\t\t\t\t\t\t<span class=\"attribute-value\">false</span>\n\t\t\t\t\t\t</div>\n\t\t\t\t\t</div>\n\t\t\t\t</div>\n\t\t\t</div>\n\t\t\t<div class=\"resource-item attribute-sensitive\">\n\t\t\t\t<div class=\"collapsible\" onclick=\"toggleCollapsible(this)\">\n\t\t\t\t\t<div>Output</div>\n\t\t\t\t\t<div class=\"resource-address\">vpc_id</div>\n\t\t\t\t</div>\n\t\t\t\t<div class=\"collapsible-content\">\n\t\t\t\t\t<div class=\"resource-attributes\">\n\t\t\t\t\t\t<div class=\"attribute-item\">\n\t\t\t\t\t\t\t<span class=\"attribute-key\">Type:</span>\n\t\t\t\t\t\t\t<span class=\"attribute-value\">string</span>\n\t\t\t\t\t\t</div>\n\t\t\t\t\t\t<div class=\"attribute-item attribute-sensitive\">\n\t\t\t\t\t\t\t<span class=\"attribute-key\">Value:</span>\n\t\t\t\t\t\t\t<span class=\"attribute-value\">vpc-...6789</span>\n\t\t\t\t\t\t</div>\n\t\t\t\t\t\t<div class=\"attribute-item\">\n\t\t\t\t\t\t\t<span class=\"attribute-key\">Sensitive:</span>\n\t\t\t\t\t\t\t<span class=\"attribute-value\">true</span>\n\t\t\t\t\t\t</div>\n\t\t\t\t\t</div>\n\t\t\t\t</div>\n\t\t\t</div></div>" := by
  have m2 : maskSensitiveValue (.str "vpc-0123456789") = goBytes "vpc-...6789" := by decide
  have f1 : formatValue formatFloat (.str "hunter2-secret") = goBytes "hunter2-secret" := rfl
  have ft : formatValue formatFloat (.str "string") = goBytes "string" := rfl
  have hb1 : formatBool false = goBytes "false" := rfl
  have hb2 : formatBool true = goBytes "true" := rfl
  simp only [generateOutputsHtml, exampleOutputs, outputHtml, outputCssClass, outputValueStr,
    outputItemHtml, List.foldl, m2, f1, ft, hb1, hb2, List.length_cons, List.length_nil,
    List.nil_append, goBytes_empty, List.append_nil, List.append_assoc, if_true,
    Bool.false_eq_true, if_false, Nat.add_one_ne_zero, Nat.succ_ne_zero]
  simp only [← goBytes_append]
  simp only [String.reduceAppend]

theorem moduleOutputsHtml_example (formatFloat : Rat → GoString) :
    moduleOutputsHtml formatFloat exampleModule =
      goBytes "<div class=\"attribute-item\">\n\t\t\t<span class=\"attribute-key\">Outputs:</span>\n\t\t</div>\n\t\t\t\t<div class=\"attribute-item \" style=\"margin-left: 20px;\">\n\t\t\t\t\t<span class=\"attribute-key\">db_password:</span>\n\t\t\t\t\t<span class=\"attribute-value\">hunter2-secret</span>\n\t\t\t\t</div>\n\t\t\t\t<div class=\"attribute-item attribute-sensitive\" style=\"margin-left: 20px;\">\n\t\t\t\t\t<span class=\"attribute-key\">vpc_id:</span>\n\t\t\t\t\t<span class=\"attribute-value\">vpc-...6789</span>\n\t\t\t\t</div>" := by
  have m2 : maskSensitiveValue (.str "vpc-0123456789") = goBytes "vpc-...6789" := by decide
  have f1 : formatValue formatFloat (.str "hunter2-secret") = goBytes "hunter2-secret" := rfl
  simp only [moduleOutputsHtml, exampleModule, Module.Outputs, moduleOutputHtml,
    outputCssClass, outputValueStr, moduleOutputItemHtml, List.foldl, m2, f1,
    List.length_cons, List.length_nil, List.nil_append, goBytes_empty, List.append_nil,
    List.append_assoc, if_true, Bool.false_eq_true, if_false, Nat.zero_add, gt_iff_lt,
    Nat.lt_add_left_iff_pos, Nat.lt_add_one, Nat.zero_lt_succ, Nat.succ_pos,
    Nat.add_one_pos]
  simp only [← goBytes_append]
  simp only [String.reduceAppend]

theorem generateStateOverviewHtml_example :
    generateStateOverviewHtml exampleState =
      goBytes "<div class=\"summary\">\n\t\t<div class=\"summary-item\">\n\t\t\t<div class=\"summary-number\">4</div>\n\t\t\t<div class=\"summary-label\">Resources</div>\n\t\t</div>\n\t\t<div class=\"summary-item\">\n\t\t\t<div class=\"summary-number\">1</div>\n\t\t\t<div class=\"summary-label\">Outputs</div>\n\t\t</div>\n\t\t<div class=\"summary-item\">\n\t\t\t<div class=\"summary-number\">1.0</div>\n\t\t\t<div class=\"summary-label\">Format Version</div>\n\t\t</div>\n\t\t<div class=\"summary-item\">\n\t\t\t<div class=\"summary-number\">1.5.7</div>\n\t\t\t<div class=\"summary-label\">Terraform Version</div>\n\t\t</div>\n\t</div><div style=\"margin-top: 20px;\">\n\t\t\t<h3>Resources by Type</h3>\n\t\t\t<div style=\"margin-top: 10px;\">\n\t\t\t\t<div style=\"padding: 5px 0; border-bottom: 1px solid #eee;\">\n\t\t\t\t\t<span style=\"font-weight: bold; color: #2c3e50;\">aws_subnet:</span>\n\t\t\t\t\t<span style=\"color: #3498db; margin-left: 10px;\">2</span>\n\t\t\t\t</div>\n\t\t\t\t<div style=\"padding: 5px 0; border-bottom: 1px solid #eee;\">\n\t\t\t\t\t<span style=\"font-weight: bold; color: #2c3e50;\">aws_vpc:</span>\n\t\t\t\t\t<span style=\"color: #3498db; margin-left: 10px;\">1</span>\n\t\t\t\t</div>\n\t\t\t\t<div style=\"padding: 5px 0; border-bottom: 1px solid #eee;\">\n\t\t\t\t\t<span style=\"font-weight: bold; color: #2c3e50;\">data.aws_ami:</span>\n\t\t\t\t\t<span style=\"color: #3498db; margin-left: 10px;\">1</span>\n\t\t\t\t</div></div></div>" := by
  have hsort : sortTypes (collectTypes [("aws_vpc", 1), ("data.aws_ami", 1),
      ("aws_subnet", 2)]) = ["aws_subnet", "aws_vpc", "data.aws_ami"] := by decide
  have c1 : countAt [("aws_vpc", 1), ("data.aws_ami", 1), ("aws_subnet", 2)] "aws_subnet" =
      2 := by decide
  have c2 : countAt [("aws_vpc", 1), ("data.aws_ami", 1), ("aws_subnet", 2)] "aws_vpc" =
      1 := by decide
  have c3 : countAt [("aws_vpc", 1), ("data.aws_ami", 1), ("aws_subnet", 2)]
      "data.aws_ami" = 1 := by decide
  have i1 : formatInt ((1 : Nat) : Int) = goBytes "1" := by decide
  have i2 : formatInt ((2 : Nat) : Int) = goBytes "2" := by decide
  have i4 : formatInt (([({ Type_ := "aws_vpc" } : Resource),
      { Mode := "data", Type_ := "aws_ami" }, { Type_ := "aws_subnet" },
      { Type_ := "aws_subnet" }].length : Nat) : Int) = goBytes "4" := by decide
  have i5 : formatInt (([({ Name := "vpc_id" } : Output)].length : Nat) : Int) =
      goBytes "1" := by decide
  have hlen : ([("aws_vpc", 1), ("data.aws_ami", 1), ("aws_subnet", 2)] :
      List (String × Nat)).length > 0 := by decide
  simp only [generateStateOverviewHtml, exampleState, overviewSummaryHtml, hsort, i4, i5,
    hlen, if_true, List.nil_append]
  simp only [List.foldl, resourceTypeRowHtml, c1, c2, c3, i1, i2, List.append_assoc]
  simp only [← goBytes_append]
  simp only [String.reduceAppend]

/-- C22. For every resource and every attribute (key, value) of its Values, the value
string rendered by `generateResourceAttributesHtml` is `maskSensitiveValue(value)` when
`isSensitiveValue(key, value, resource.SensitiveValues)` is true and
`formatValue(value)` otherwise, and the item carries the class "attribute-sensitive"
exactly when the value is masked: the configuration part of the result is the items of
the attributes, in the order of the loop, each with that class and that value string.
The item is the text of lines 430-434 with the class, the key and the value string in
its three places, and the HTML of a resource with a plain attribute, an attribute with a
sensitive name, an attribute with an explicit marker and an array is written out. -/
theorem attributes_masked_iff_sensitive (unicodeToLower : Char → Char)
    (formatFloat : Rat → GoString) (resource : Resource) :
    (∀ key value,
      attributeValueStr unicodeToLower formatFloat resource key value =
        (if isSensitiveValue unicodeToLower key value resource.SensitiveValues = true then
          maskSensitiveValue value
        else formatValue formatFloat value) ∧
      attributeCssClass unicodeToLower resource key value =
        (if isSensitiveValue unicodeToLower key value resource.SensitiveValues = true then
          goBytes "attribute-sensitive"
        else [])) ∧
    generateResourceAttributesHtml unicodeToLower formatFloat resource =
      resourceBasicInfoHtml resource ++
      (if resource.Values.length > 0 then
        goBytes "<div class=\"attribute-item\">\n\t\t\t<span class=\"attribute-key\">Configuration:</span>\n\t\t</div>" ++
        (resource.Values.map (fun entry =>
          attributeItemHtml
            (if isSensitiveValue unicodeToLower entry.1 entry.2 resource.SensitiveValues = true
              then goBytes "attribute-sensitive" else [])
            (goBytes entry.1)
            (if isSensitiveValue unicodeToLower entry.1 entry.2 resource.SensitiveValues = true
              then maskSensitiveValue entry.2 else formatValue formatFloat entry.2))).flatten
      else []) ++
      (if resource.DependsOn.length > 0 then
        goBytes "<div class=\"attribute-item\">\n\t\t\t<span class=\"attribute-key\">Dependencies:</span>\n\t\t</div>" ++
        (resource.DependsOn.map dependencyItemHtml).flatten
      else []) ∧
    (∀ cssClass key valueStr : GoString,
      attributeItemHtml cssClass key valueStr =
        goBytes "\n\t\t\t\t<div class=\"attribute-item " ++
        cssClass ++
        goBytes "\">\n\t\t\t\t\t<span class=\"attribute-key\">" ++
        key ++
        goBytes ":</span>\n\t\t\t\t\t<span class=\"attribute-value\">" ++
        valueStr ++
        goBytes "</span>\n\t\t\t\t</div>") ∧
    generateResourceAttributesHtml unicodeToLower formatFloat exampleResource =
      goBytes "\n\t\t<div class=\"attribute-item\">\n\t\t\t<span class=\"attribute-key\">Type:</span>\n\t\t\t<span class=\"attribute-value\">aws_db_instance</span>\n\t\t</div>\n\t\t<div class=\"attribute-item\">\n\t\t\t<span class=\"attribute-key\">Provider:</span>\n\t\t\t<span class=\"attribute-value\">registry.terraform.io/hashicorp/aws</span>\n\t\t</div>\n\t\t<div class=\"attribute-item\">\n\t\t\t<span class=\"attribute-key\">Schema Version:</span>\n\t\t\t<span class=\"attribute-value\">2</span>\n\t\t</div><div class=\"attribute-item\">\n\t\t\t<span class=\"attribute-key\">Configuration:</span>\n\t\t</div>\n\t\t\t\t<div class=\"attribute-item \">\n\t\t\t\t\t<span class=\"attribute-key\">region:</span>\n\t\t\t\t\t<span class=\"attribute-value\">eu-west-1</span>\n\t\t\t\t</div>\n\t\t\t\t<div class=\"attribute-item attribute-sensitive\">\n\t\t\t\t\t<span class=\"attribute-key\">DB_Password:</span>\n\t\t\t\t\t<span class=\"attribute-value\">hunt...cret</span>\n\t\t\t\t</div>\n\t\t\t\t<div class=\"attribute-item attribute-sensitive\">\n\t\t\t\t\t<span class=\"attribute-key\">endpoint:</span>\n\t\t\t\t\t<span class=\"attribute-value\">db.e....com</span>\n\t\t\t\t</div>\n\t\t\t\t<div class=\"attribute-item \">\n\t\t\t\t\t<span class=\"attribute-key\">ports:</span>\n\t\t\t\t\t<span class=\"attribute-value\">[3 items]</span>\n\t\t\t\t</div><div class=\"attribute-item\">\n\t\t\t<span class=\"attribute-key\">Dependencies:</span>\n\t\t</div>\n\t\t\t\t<div class=\"attribute-item\">\n\t\t\t\t\t<span class=\"attribute-value\">aws_vpc.main</span>\n\t\t\t\t</div>" := by
  have hitem : ∀ key value,
      attributeValueStr unicodeToLower formatFloat resource key value =
        (if isSensitiveValue unicodeToLower key value resource.SensitiveValues = true then
          maskSensitiveValue value
        else formatValue formatFloat value) ∧
      attributeCssClass unicodeToLower resource key value =
        (if isSensitiveValue unicodeToLower key value resource.SensitiveValues = true then
          goBytes "attribute-sensitive"
        else []) := fun _ _ => ⟨rfl, rfl⟩
  refine ⟨hitem, ?_, fun _ _ _ => rfl,
    generateResourceAttributesHtml_example unicodeToLower formatFloat⟩
  unfold generateResourceAttributesHtml
  simp only [List.nil_append, foldl_append_html, resourceAttributeHtml, (hitem _ _).1,
    (hitem _ _).2]
  split <;> split <;> simp [List.append_assoc]

/-- C23 as stated fails: an output named "db_password" with `sensitive = false` has a
name that the heuristic vocabulary classifies as sensitive, and both the root-level and
the module-level renderer show its value unmasked and without the sensitive class. -/
theorem output_name_heuristic_counterexample :
    isSensitiveValue id "db_password" (.str "hunter2-secret") [] = true ∧
    maskSensitiveValue (.str "hunter2-secret") = goBytes "hunt...cret" ∧
    outputHtml (fun _ => [])
        { Name := "db_password", Sensitive := false, Value := .str "hunter2-secret" } =
      outputItemHtml [] (goBytes "db_password") (goBytes "null") (goBytes "hunter2-secret")
        (goBytes "false") ∧
    moduleOutputHtml (fun _ => []) "db_password"
        { Sensitive := false, Value := .str "hunter2-secret" } =
      moduleOutputItemHtml [] (goBytes "db_password") (goBytes "hunter2-secret") ∧
    outputValueStr (fun _ => []) false (.str "hunter2-secret") ≠
      maskSensitiveValue (.str "hunter2-secret") := by
  refine ⟨by decide, by decide, ?_, ?_, by decide⟩
  · have hv : outputValueStr (fun _ => []) false (.str "hunter2-secret") =
        goBytes "hunter2-secret" := by decide
    have ht : formatValue (fun _ => []) JSON.null = goBytes "null" := rfl
    have hb : formatBool false = goBytes "false" := rfl
    have hc : outputCssClass false = [] := rfl
    simp only [outputHtml, hv, ht, hb, hc]
  · have hv : outputValueStr (fun _ => []) false (.str "hunter2-secret") =
        goBytes "hunter2-secret" := by decide
    have hc : outputCssClass false = [] := rfl
    simp only [moduleOutputHtml, hv, hc]

/-- C23, amended. For every root-level or module-level output, the renderer shows the
masked form of its value exactly when the output's own `sensitive` flag is true, and the
unmasked formatted form otherwise; the class "attribute-sensitive" is set in the same
case.  The name of the output is not consulted: the heuristic vocabulary of
`isSensitiveValue` applies to resource attributes only.  The items are the texts of
lines 476-501 and 602-606 with the class, the name and the value string in their places,
and the HTML of two outputs, one with a name of the vocabulary and no flag and one
flagged, is written out for both renderers. -/
theorem outputs_masked_iff_flagged (formatFloat : Rat → GoString) :
    (∀ output : Output,
      outputHtml formatFloat output =
        outputItemHtml
          (if output.Sensitive = true then goBytes "attribute-sensitive" else [])
          (goBytes output.Name) (formatValue formatFloat output.Type_)
          (if output.Sensitive = true then maskSensitiveValue output.Value
            else formatValue formatFloat output.Value)
          (formatBool output.Sensitive)) ∧
    (∀ (name : String) (output : OutputValue),
      moduleOutputHtml formatFloat name output =
        moduleOutputItemHtml
          (if output.Sensitive = true then goBytes "attribute-sensitive" else [])
          (goBytes name)
          (if output.Sensitive = true then maskSensitiveValue output.Value
            else formatValue formatFloat output.Value)) ∧
    (∀ stateData : StateData,
      generateOutputsHtml formatFloat stateData =
        if stateData.Outputs.length = 0 then goBytes "<p>No outputs found in state.</p>"
        else goBytes "<div>" ++ (stateData.Outputs.map (outputHtml formatFloat)).flatten ++
          goBytes "</div>") ∧
    (∀ cssClass name typeStr valueStr sensitiveStr : GoString,
      outputItemHtml cssClass name typeStr valueStr sensitiveStr =
        goBytes "\n\t\t\t<div class=\"resource-item " ++
        cssClass ++
        goBytes "\">\n\t\t\t\t<div class=\"collapsible\" onclick=\"toggleCollapsible(this)\">\n\t\t\t\t\t<div>Output</div>\n\t\t\t\t\t<div class=\"resource-address\">" ++
        name ++
        goBytes "</div>\n\t\t\t\t</div>\n\t\t\t\t<div class=\"collapsible-content\">\n\t\t\t\t\t<div class=\"resource-attributes\">\n\t\t\t\t\t\t<div class=\"attribute-item\">\n\t\t\t\t\t\t\t<span class=\"attribute-key\">Type:</span>\n\t\t\t\t\t\t\t<span class=\"attribute-value\">" ++
        typeStr ++
        goBytes "</span>\n\t\t\t\t\t\t</div>\n\t\t\t\t\t\t<div class=\"attribute-item " ++
        cssClass ++
        goBytes "\">\n\t\t\t\t\t\t\t<span class=\"attribute-key\">Value:</span>\n\t\t\t\t\t\t\t<span class=\"attribute-value\">" ++
        valueStr ++
        goBytes "</span>\n\t\t\t\t\t\t</div>\n\t\t\t\t\t\t<div class=\"attribute-item\">\n\t\t\t\t\t\t\t<span class=\"attribute-key\">Sensitive:</span>\n\t\t\t\t\t\t\t<span class=\"attribute-value\">" ++
        sensitiveStr ++
        goBytes "</span>\n\t\t\t\t\t\t</div>\n\t\t\t\t\t</div>\n\t\t\t\t</div>\n\t\t\t</div>") ∧
    (∀ cssClass name valueStr : GoString,
      moduleOutputItemHtml cssClass name valueStr =
        goBytes "\n\t\t\t\t<div class=\"attribute-item " ++
        cssClass ++
        goBytes "\" style=\"margin-left: 20px;\">\n\t\t\t\t\t<span class=\"attribute-key\">" ++
        name ++
        goBytes ":</span>\n\t\t\t\t\t<span class=\"attribute-value\">" ++
        valueStr ++
        goBytes "</span>\n\t\t\t\t</div>") ∧
    generateOutputsHtml formatFloat { Outputs := exampleOutputs } =
      goBytes "<div>\n\t\t\t<div class=\"resource-item \">\n\t\t\t\t<div class=\"collapsible\" onclick=\"toggleCollapsible(this)\">\n\t\t\t\t\t<div>Output</div>\n\t\t\t\t\t<div class=\"resource-address\">db_password</div>\n\t\t\t\t</div>\n\t\t\t\t<div class=\"collapsible-content\">\n\t\t\t\t\t<div class=\"resource-attributes\">\n\t\t\t\t\t\t<div class=\"attribute-item\">\n\t\t\t\t\t\t\t<span class=\"attribute-key\">Type:</span>\n\t\t\t\t\t\t\t<span class=\"attribute-value\">string</span>\n\t\t\t\t\t\t</div>\n\t\t\t\t\t\t<div class=\"attribute-item \">\n\t\t\t\t\t\t\t<span class=\"attribute-key\">Value:</span>\n\t\t\t\t\t\t\t<span class=\"attribute-value\">hunter2-secret</span>\n\t\t\t\t\t\t</div>\n\t\t\t\t\t\t<div class=\"attribute-item\">\n\t\t\t\t\t\t\t<span class=\"attribute-key\">Sensitive:</span>\n\t\t\t\t\t\t\t<span class=\"attribute-value\">false</span>\n\t\t\t\t\t\t</div>\n\t\t\t\t\t</div>\n\t\t\t\t</div>\n\t\t\t</div>\n\t\t\t<div class=\"resource-item attribute-sensitive\">\n\t\t\t\t<div class=\"collapsible\" onclick=\"toggleCollapsible(this)\">\n\t\t\t\t\t<div>Output</div>\n\t\t\t\t\t<div class=\"resource-address\">vpc_id</div>\n\t\t\t\t</div>\n\t\t\t\t<div class=\"collapsible-content\">\n\t\t\t\t\t<div class=\"resource-attributes\">\n\t\t\t\t\t\t<div class=\"attribute-item\">\n\t\t\t\t\t\t\t<span class=\"attribute-key\">Type:</span>\n\t\t\t\t\t\t\t<span class=\"attribute-value\">string</span>\n\t\t\t\t\t\t</div>\n\t\t\t\t\t\t<div class=\"attribute-item attribute-sensitive\">\n\t\t\t\t\t\t\t<span class=\"attribute-key\">Value:</span>\n\t\t\t\t\t\t\t<span class=\"attribute-value\">vpc-...6789</span>\n\t\t\t\t\t\t</div>\n\t\t\t\t\t\t<div class=\"attribute-item\">\n\t\t\t\t\t\t\t<span class=\"attribute-key\">Sensitive:</span>\n\t\t\t\t\t\t\t<span class=\"attribute-value\">true</span>\n\t\t\t\t\t\t</div>\n\t\t\t\t\t</div>\n\t\t\t\t</div>\n\t\t\t</div></div>" ∧
    moduleOutputsHtml formatFloat exampleModule =
      goBytes "<div class=\"attribute-item\">\n\t\t\t<span class=\"attribute-key\">Outputs:</span>\n\t\t</div>\n\t\t\t\t<div class=\"attribute-item \" style=\"margin-left: 20px;\">\n\t\t\t\t\t<span class=\"attribute-key\">db_password:</span>\n\t\t\t\t\t<span class=\"attribute-value\">hunter2-secret</span>\n\t\t\t\t</div>\n\t\t\t\t<div class=\"attribute-item attribute-sensitive\" style=\"margin-left: 20px;\">\n\t\t\t\t\t<span class=\"attribute-key\">vpc_id:</span>\n\t\t\t\t\t<span class=\"attribute-value\">vpc-...6789</span>\n\t\t\t\t</div>" := by
  refine ⟨fun _ => rfl, fun _ _ => rfl, fun stateData => ?_, fun _ _ _ _ _ => rfl,
    fun _ _ _ => rfl, generateOutputsHtml_example formatFloat,
    moduleOutputsHtml_example formatFloat⟩
  unfold generateOutputsHtml
  split
  · rfl
  · simp only [List.nil_append, foldl_append_html]

/-! ## The output path -/

/-- C25. For every pair of flag values, the final output path is the `-o` value whenever
`-o` differs from the default "state-visualization.html" (also when both are set), the
`--output-html-path` value when only that one differs from the default, and the default
when neither does. -/
theorem finalOutputFile_prefers_short_flag (outputFile outputFileLong : String) :
    (outputFile ≠ "state-visualization.html" →
      finalOutputFile outputFile outputFileLong = outputFile) ∧
    (outputFile = "state-visualization.html" →
      outputFileLong ≠ "state-visualization.html" →
      finalOutputFile outputFile outputFileLong = outputFileLong) ∧
    (outputFile = "state-visualization.html" →
      outputFileLong = "state-visualization.html" →
      finalOutputFile outputFile outputFileLong = "state-visualization.html") := by
  refine ⟨fun h => ?_, fun h1 h2 => ?_, fun h1 h2 => ?_⟩
  · simp [finalOutputFile, h]
  · simp [finalOutputFile, h1, h2]
  · simp [finalOutputFile, h1, h2]

/-- Witness for C25: both flags set, only the long flag set, and neither set. -/
theorem finalOutputFile_prefers_short_flag_witness :
    finalOutputFile "a.html" "b.html" = "a.html" ∧
    finalOutputFile "state-visualization.html" "b.html" = "b.html" ∧
    finalOutputFile "state-visualization.html" "state-visualization.html" =
      "state-visualization.html" :=
  ⟨(finalOutputFile_prefers_short_flag "a.html" "b.html").1 (by decide),
   (finalOutputFile_prefers_short_flag "state-visualization.html" "b.html").2.1 rfl
     (by decide),
   (finalOutputFile_prefers_short_flag "state-visualization.html"
     "state-visualization.html").2.2 rfl rfl⟩

/-- C24. The hand-written sort of `generateStateOverviewHtml` sorts the resource types:
for every `ResourceCounts` mapping, the list `sortedTypes` after the nested loops is a
permutation of the mapping's keys (each key exactly once, the keys of a mapping being
distinct) and is in non-decreasing lexicographic order, and the "Resources by Type" rows
are written in that order, each with the count of its key.  A row is the text of lines
340-344 with the key and the count in their places, and the HTML of a state with three
resource types is written out. -/
theorem sortedTypes_sorted_perm (stateData : StateData) :
    List.Perm (sortTypes (collectTypes stateData.ResourceCounts))
      (stateData.ResourceCounts.map Prod.fst) ∧
    List.Pairwise (fun a b => goBytes a ≤ goBytes b)
      (sortTypes (collectTypes stateData.ResourceCounts)) ∧
    ((stateData.ResourceCounts.map Prod.fst).Nodup →
      (sortTypes (collectTypes stateData.ResourceCounts)).Nodup) ∧
    generateStateOverviewHtml stateData =
      overviewSummaryHtml stateData ++
      (if stateData.ResourceCounts.length > 0 then
        goBytes "<div style=\"margin-top: 20px;\">\n\t\t\t<h3>Resources by Type</h3>\n\t\t\t<div style=\"margin-top: 10px;\">" ++
        ((sortTypes (collectTypes stateData.ResourceCounts)).map (fun resourceType =>
          resourceTypeRowHtml resourceType
            (countAt stateData.ResourceCounts resourceType))).flatten ++
        goBytes "</div></div>"
      else []) ∧
    (∀ (resourceType : String) (count : Nat),
      resourceTypeRowHtml resourceType count =
        goBytes "\n\t\t\t\t<div style=\"padding: 5px 0; border-bottom: 1px solid #eee;\">\n\t\t\t\t\t<span style=\"font-weight: bold; color: #2c3e50;\">" ++
        goBytes resourceType ++
        goBytes ":</span>\n\t\t\t\t\t<span style=\"color: #3498db; margin-left: 10px;\">" ++
        formatInt count ++
        goBytes "</span>\n\t\t\t\t</div>") ∧
    generateStateOverviewHtml exampleState =
      goBytes "<div class=\"summary\">\n\t\t<div class=\"summary-item\">\n\t\t\t<div class=\"summary-number\">4</div>\n\t\t\t<div class=\"summary-label\">Resources</div>\n\t\t</div>\n\t\t<div class=\"summary-item\">\n\t\t\t<div class=\"summary-number\">1</div>\n\t\t\t<div class=\"summary-label\">Outputs</div>\n\t\t</div>\n\t\t<div class=\"summary-item\">\n\t\t\t<div class=\"summary-number\">1.0</div>\n\t\t\t<div class=\"summary-label\">Format Version</div>\n\t\t</div>\n\t\t<div class=\"summary-item\">\n\t\t\t<div class=\"summary-number\">1.5.7</div>\n\t\t\t<div class=\"summary-label\">Terraform Version</div>\n\t\t</div>\n\t</div><div style=\"margin-top: 20px;\">\n\t\t\t<h3>Resources by Type</h3>\n\t\t\t<div style=\"margin-top: 10px;\">\n\t\t\t\t<div style=\"padding: 5px 0; border-bottom: 1px solid #eee;\">\n\t\t\t\t\t<span style=\"font-weight: bold; color: #2c3e50;\">aws_subnet:</span>\n\t\t\t\t\t<span style=\"color: #3498db; margin-left: 10px;\">2</span>\n\t\t\t\t</div>\n\t\t\t\t<div style=\"padding: 5px 0; border-bottom: 1px solid #eee;\">\n\t\t\t\t\t<span style=\"font-weight: bold; color: #2c3e50;\">aws_vpc:</span>\n\t\t\t\t\t<span style=\"color: #3498db; margin-left: 10px;\">1</span>\n\t\t\t\t</div>\n\t\t\t\t<div style=\"padding: 5px 0; border-bottom: 1px solid #eee;\">\n\t\t\t\t\t<span style=\"font-weight: bold; color: #2c3e50;\">data.aws_ami:</span>\n\t\t\t\t\t<span style=\"color: #3498db; margin-left: 10px;\">1</span>\n\t\t\t\t</div></div></div>" := by
  obtain ⟨hperm, hsorted⟩ := sortTypes_spec (collectTypes stateData.ResourceCounts)
  have hkeys : List.Perm (sortTypes (collectTypes stateData.ResourceCounts))
      (stateData.ResourceCounts.map Prod.fst) :=
    hperm.trans (by rw [collectTypes_eq])
  refine ⟨hkeys, hsorted, fun hnd => hkeys.nodup_iff.mpr hnd, ?_, fun _ _ => rfl,
    generateStateOverviewHtml_example⟩
  unfold generateStateOverviewHtml
  simp only [List.nil_append, foldl_append_html]
  split
  · simp [List.append_assoc]
  · simp

/-- Witness for C24: five resource types, among them an upper-case one and a data
source. -/
theorem sortedTypes_sorted_perm_witness :
    sortTypes (collectTypes [("b", 1), ("data.a", 2), ("a", 1), ("aa", 3), ("B", 1)]) =
      ["B", "a", "aa", "b", "data.a"] ∧
    (sortTypes (collectTypes
      ({ ResourceCounts := [("b", 1), ("data.a", 2), ("a", 1), ("aa", 3), ("B", 1)] } :
        StateData).ResourceCounts)).Nodup :=
  ⟨by decide,
   (sortedTypes_sorted_perm
     { ResourceCounts := [("b", 1), ("data.a", 2), ("a", 1), ("aa", 3), ("B", 1)] }).2.2.1
     (by decide)⟩

/-! ## The vocabulary and the mask, again -/

theorem stringsContains_of_segment (s w w' : String)
    (hw : List.IsInfix (goBytes w') (goBytes w)) (h : stringsContains s w = true) :
    stringsContains s w' = true := by
  unfold stringsContains at h ⊢
  rw [bytesContain_iff_segment] at h ⊢
  exact hw.trans h

/-- C26. The 13-entry vocabulary of `isSensitiveValue` is equivalent to its 7-entry
subset: for every key and marker mapping, `isSensitiveValue` returns the same result as
the classifier that checks only password, secret, key, token, credential, certificate
and ca_cert, because private_key, public_key, access_key, secret_key and api_key each
contain "key" and auth_token contains "token". -/
theorem isSensitiveValue_eq_short_vocabulary (unicodeToLower : Char → Char) (key : String)
    (value : JSON) (sensitiveValues : JMap) :
    isSensitiveValue unicodeToLower key value sensitiveValues =
      isSensitiveValueShort unicodeToLower key sensitiveValues ∧
    List.IsInfix (goBytes "key") (goBytes "private_key") ∧
    List.IsInfix (goBytes "key") (goBytes "public_key") ∧
    List.IsInfix (goBytes "key") (goBytes "access_key") ∧
    List.IsInfix (goBytes "key") (goBytes "secret_key") ∧
    List.IsInfix (goBytes "key") (goBytes "api_key") ∧
    List.IsInfix (goBytes "token") (goBytes "auth_token") := by
  have hk1 : List.IsInfix (goBytes "key") (goBytes "private_key") := by decide
  have hk2 : List.IsInfix (goBytes "key") (goBytes "public_key") := by decide
  have hk3 : List.IsInfix (goBytes "key") (goBytes "access_key") := by decide
  have hk4 : List.IsInfix (goBytes "key") (goBytes "secret_key") := by decide
  have hk5 : List.IsInfix (goBytes "key") (goBytes "api_key") := by decide
  have ht : List.IsInfix (goBytes "token") (goBytes "auth_token") := by decide
  refine ⟨?_, hk1, hk2, hk3, hk4, hk5, ht⟩
  unfold isSensitiveValue isSensitiveValueShort
  cases mapGet sensitiveValues key with
  | some marker => rfl
  | none =>
    simp only []
    rw [Bool.eq_iff_iff, List.any_eq_true, List.any_eq_true]
    constructor
    · rintro ⟨w, hw, hc⟩
      simp only [List.mem_cons, List.mem_singleton, List.mem_nil_iff, or_false] at hw
      rcases hw with h | h | h | h | h | h | h | h | h | h | h | h | h <;> subst h
      · exact ⟨"password", by simp, hc⟩
      · exact ⟨"secret", by simp, hc⟩
      · exact ⟨"key", by simp, hc⟩
      · exact ⟨"token", by simp, hc⟩
      · exact ⟨"credential", by simp, hc⟩
      · exact ⟨"key", by simp, stringsContains_of_segment _ _ _ hk1 hc⟩
      · exact ⟨"key", by simp, stringsContains_of_segment _ _ _ hk2 hc⟩
      · exact ⟨"certificate", by simp, hc⟩
      · exact ⟨"ca_cert", by simp, hc⟩
      · exact ⟨"key", by simp, stringsContains_of_segment _ _ _ hk3 hc⟩
      · exact ⟨"key", by simp, stringsContains_of_segment _ _ _ hk4 hc⟩
      · exact ⟨"key", by simp, stringsContains_of_segment _ _ _ hk5 hc⟩
      · exact ⟨"token", by simp, stringsContains_of_segment _ _ _ ht hc⟩
    · rintro ⟨w, hw, hc⟩
      refine ⟨w, ?_, hc⟩
      simp only [List.mem_cons, List.mem_singleton, List.mem_nil_iff, or_false] at hw ⊢
      rcases hw with h | h | h | h | h | h | h <;> simp [h]

/-- C27. The mask of a long string shows nothing but its first 4 and last 4 bytes: two
strings of more than 8 bytes that agree on their first 4 and on their last 4 bytes have
the same mask, and the mask of a string of more than 8 bytes always has length 11. -/
theorem maskSensitiveValue_reveals_ends_only :
    (∀ v w : String, (goBytes v).length > 8 → (goBytes w).length > 8 →
      (goBytes v).take 4 = (goBytes w).take 4 →
      (goBytes v).drop ((goBytes v).length - 4) = (goBytes w).drop ((goBytes w).length - 4) →
      maskSensitiveValue (.str v) = maskSensitiveValue (.str w)) ∧
    (∀ v : String, (goBytes v).length > 8 → (maskSensitiveValue (.str v)).length = 11) := by
  refine ⟨fun v w hv hw h1 h2 => ?_, fun v hv => ?_⟩
  · simp only [maskSensitiveValue, if_pos hv, if_pos hw, h1, h2]
  · simp only [maskSensitiveValue, if_pos hv, List.length_append, List.length_take,
      List.length_drop]
    have h3 : (goBytes "...").length = 3 := by decide
    rw [h3]
    omega

/-- Witness for C27: two secrets of different lengths with the same ends. -/
theorem maskSensitiveValue_reveals_ends_only_witness :
    maskSensitiveValue (.str "abcd-first-secret-wxyz") =
      maskSensitiveValue (.str "abcd-another-longer-secret-wxyz") ∧
    (maskSensitiveValue (.str "abcd-first-secret-wxyz")).length = 11 :=
  ⟨maskSensitiveValue_reveals_ends_only.1 "abcd-first-secret-wxyz"
      "abcd-another-longer-secret-wxyz" (by decide) (by decide) (by decide) (by decide),
   maskSensitiveValue_reveals_ends_only.2 "abcd-first-secret-wxyz" (by decide)⟩

/-! ## Root and nested resources parse alike -/

/-- C21. The per-field parsing that `parseRootModule` performs inline is the same
function as `parseResource`: for every resource object, the Resource appended to
`state.Resources` for the root module is `parseResource` of that object, which is also
what the module parser stores for a nested module; so for every document the leading
part of `state.Resources` is `parseResource` applied to the root's resource objects. -/
theorem root_inline_parsing_eq_parseResource :
    (∀ resourceMap : JMap, parseRootResource resourceMap = parseResource resourceMap) ∧
    (∀ (resourceMap : JMap) (state : StateData),
      (parseRootResourceStep state (.obj resourceMap)).Resources =
        state.Resources ++ [parseResource resourceMap]) ∧
    (∀ resourceMap : JMap,
      parseModuleResources [.obj resourceMap] = [parseResource resourceMap]) ∧
    (∀ stateMap : JMap, ∃ state, parseStateData (.obj stateMap) = .ok state ∧
      List.IsPrefix ((declaredRootResourceObjects stateMap).map parseResource)
        state.Resources) := by
  refine ⟨fun _ => rfl, fun _ _ => rfl, fun _ => rfl, fun stateMap => ?_⟩
  obtain ⟨modules, _, hs⟩ := parseStateData_obj_eq stateMap
  exact ⟨_, hs, List.prefix_append _ _⟩

/-! ## Counts are positive -/

theorem incrCount_pos (counts : List (String × Nat)) (k : String)
    (h : ∀ e ∈ counts, 1 ≤ e.2) : ∀ e ∈ incrCount counts k, 1 ≤ e.2 := by
  induction counts with
  | nil =>
    intro e he
    simp only [incrCount, List.mem_singleton] at he
    rw [he]
  | cons kv rest ih =>
    obtain ⟨k', n⟩ := kv
    intro e he
    unfold incrCount at he
    split at he
    · rcases List.mem_cons.mp he with he | he
      · rw [he]
        exact Nat.le_add_left 1 n
      · exact h e (List.mem_cons_of_mem _ he)
    · rcases List.mem_cons.mp he with he | he
      · rw [he]
        exact h (k', n) (List.mem_cons_self _ _)
      · exact ih (fun e' he' => h e' (List.mem_cons_of_mem _ he')) e he

theorem countAll_pos (resources : List Resource) (counts : List (String × Nat))
    (h : ∀ e ∈ counts, 1 ≤ e.2) : ∀ e ∈ countAll counts resources, 1 ≤ e.2 := by
  induction resources generalizing counts with
  | nil => exact h
  | cons r rest ih =>
    exact ih (incrCount counts (resourceTypeKey r)) (incrCount_pos counts _ h)

theorem lookup_mem_of_mem_keys (counts : List (String × Nat)) (k : String)
    (h : k ∈ counts.map Prod.fst) : ∃ n, List.lookup k counts = some n ∧ (k, n) ∈ counts := by
  induction counts with
  | nil => simp at h
  | cons kv rest ih =>
    obtain ⟨k', n⟩ := kv
    by_cases hk : k = k'
    · subst hk
      exact ⟨n, by simp [List.lookup], List.mem_cons_self _ _⟩
    · have hk' : (k == k') = false := by simpa using hk
      have hrest : k ∈ rest.map Prod.fst := by
        simp only [List.map_cons, List.mem_cons] at h
        rcases h with h | h
        · exact absurd h hk
        · exact h
      obtain ⟨m, hm, hmem⟩ := ih hrest
      exact ⟨m, by simp [List.lookup, hk', hm], List.mem_cons_of_mem _ hmem⟩

/-- C28. For every state document parsed by `parseStateData`, every key present in
`state.ResourceCounts` has a count of at least 1, and `ResourceCounts` is non-empty if
and only if `state.Resources` is non-empty: the guard `len(ResourceCounts) > 0` of the
"Resources by Type" breakdown holds exactly when there is at least one resource. -/
theorem resourceCounts_positive (stateMap : JMap) :
    ∃ state, parseStateData (.obj stateMap) = .ok state ∧
      (∀ k, k ∈ state.ResourceCounts.map Prod.fst → 1 ≤ countAt state.ResourceCounts k) ∧
      (state.ResourceCounts ≠ [] ↔ state.Resources ≠ []) ∧
      (state.ResourceCounts.length > 0 ↔ state.Resources.length > 0) := by
  obtain ⟨modules, _, hs⟩ := parseStateData_obj_eq stateMap
  obtain ⟨h1, h2, _⟩ := builtState_fields stateMap modules
  have hpos := countAll_pos
    (declaredRootResources stateMap ++ preorderResourcesList modules) [] (by simp)
  have hinv := countAll_invariants
    (declaredRootResources stateMap ++ preorderResourcesList modules) [] List.nodup_nil
  have hlen : (builtState stateMap modules).ResourceCounts.length > 0 ↔
      (builtState stateMap modules).Resources.length > 0 := by
    rw [h1, h2]
    generalize declaredRootResources stateMap ++ preorderResourcesList modules = rs at hinv
    have hsum := hinv.2
    simp only [sumCounts, List.map_nil, List.sum_nil, Nat.zero_add] at hsum
    constructor
    · intro hc
      cases rs with
      | nil => simp [countAll] at hc
      | cons r rest => simp
    · intro hr
      cases hca : countAll [] rs with
      | nil =>
        rw [hca] at hsum
        simp only [List.map_nil, List.sum_nil] at hsum
        omega
      | cons e rest => simp
  refine ⟨_, hs, fun k hk => ?_, ?_, hlen⟩
  · obtain ⟨n, hl, hmem⟩ := lookup_mem_of_mem_keys _ k hk
    rw [h2] at hl hmem
    rw [h2, countAt, hl]
    exact hpos (k, n) hmem
  · rw [← List.length_pos, ← List.length_pos]
    exact hlen

theorem rootOnly_resourceCounts (state : StateData)
    (h : parseStateData (.obj rootOnlyStateMap) = .ok state) :
    state.ResourceCounts = [("aws_vpc", 1)] := by
  obtain ⟨modules, hm, hs⟩ := parseStateData_obj_eq rootOnlyStateMap
  rw [hs] at h
  injection h with h
  subst h
  have hmod : modules = [] := by
    simp [rootChildModulesData, rootModuleData, rootOnlyStateMap, mapGet, List.lookup, asMap,
      asArray, parseModules_nil] at hm
    exact hm
  subst hmod
  have hd : declaredRootResources rootOnlyStateMap =
      [{ Address := "aws_vpc.main", Mode := "managed", Type_ := "aws_vpc",
         Name := "main" }] := by
    simp [declaredRootResources, declaredRootResourceObjects, rootModuleData,
      rootOnlyStateMap, mapGet, List.lookup, asMap, asArray, objectsOf, parseResource,
      asString, asFloat64]
  have h2 := (builtState_fields rootOnlyStateMap []).2.1
  rw [h2, hd]
  decide

/-- Witness for C28: in the document with one root resource the key "aws_vpc" is present
and its count is at least 1. -/
theorem resourceCounts_positive_witness :
    ∃ state, parseStateData (.obj rootOnlyStateMap) = .ok state ∧
      "aws_vpc" ∈ state.ResourceCounts.map Prod.fst ∧
      1 ≤ countAt state.ResourceCounts "aws_vpc" :=
  (resourceCounts_positive rootOnlyStateMap).elim
    (fun state h =>
      have hmem : "aws_vpc" ∈ state.ResourceCounts.map Prod.fst := by
        rw [rootOnly_resourceCounts state h.1]
        decide
      ⟨state, h.1, hmem, h.2.1 "aws_vpc" hmem⟩)

/-! ## Termination at any depth -/

theorem parseModules_nestedModulesData (depth : Nat) :
    ∀ p : String, parseModules (nestedModulesData depth) p = .ok (nestedModules depth) := by
  induction depth with
  | zero => intro p; exact parseModules_nil p
  | succ d ih =>
    intro p
    rw [nestedModulesData, parseModules_cons_obj]
    have hc : asArray (mapGet [("address", JSON.str "module.m"),
        ("resources", JSON.arr [JSON.obj [("type", JSON.str "t")]]),
        ("child_modules", JSON.arr (nestedModulesData d))] "child_modules") =
        some (nestedModulesData d) := by
      simp [mapGet, List.lookup, asArray]
    have ha : moduleAddress [("address", JSON.str "module.m"),
        ("resources", JSON.arr [JSON.obj [("type", JSON.str "t")]]),
        ("child_modules", JSON.arr (nestedModulesData d))] = "module.m" := by
      simp [moduleAddress, mapGet, List.lookup, asString]
    have hr : (match asArray (mapGet [("address", JSON.str "module.m"),
        ("resources", JSON.arr [JSON.obj [("type", JSON.str "t")]]),
        ("child_modules", JSON.arr (nestedModulesData d))] "resources") with
        | some resourcesData => parseModuleResources resourcesData
        | none => []) = [{ Type_ := "t" }] := by
      simp [mapGet, List.lookup, asArray, parseModuleResources, parseResource, asString,
        asFloat64, asMap]
    have ho : (match asMap (mapGet [("address", JSON.str "module.m"),
        ("resources", JSON.arr [JSON.obj [("type", JSON.str "t")]]),
        ("child_modules", JSON.arr (nestedModulesData d))] "outputs") with
        | some outputsData => parseModuleOutputs outputsData
        | none => []) = [] := by
      simp [mapGet, List.lookup, asMap]
    rw [hc, ha, hr, ho]
    simp only [ih, parseModules_nil]
    rfl

theorem nestedModules_totals (depth : Nat) :
    modulesDepth (nestedModules depth) = depth ∧
    (preorderResourcesList (nestedModules depth)).length = depth := by
  induction depth with
  | zero => exact ⟨rfl, rfl⟩
  | succ d ih =>
    obtain ⟨h1, h2⟩ := ih
    constructor
    · simp [nestedModules, modulesDepth, moduleDepth, h1]
    · simp [nestedModules, preorderResourcesList, preorderResources, h2]

/-- C29. `parseModules`, `addModuleResourcesToState` and `countModuleResources` are total
with no depth limit.  `parseModules` returns a result on every input; its recursive call
is on the "child_modules" array of the current element, which is strictly smaller than
the element, and the recursive calls of the other two are on child modules, which are
strictly smaller than the module.  For every depth there is an input nested that deep on
which the three return: the parsed tree has that depth, and the walk and the count both
give one resource per level. -/
theorem recursion_total_at_any_depth :
    (∀ (modulesData : List JSON) (parentAddress : String),
      ∃ modules, parseModules modulesData parentAddress = .ok modules) ∧
    (∀ (moduleMap : JMap) (childModulesData : List JSON),
      asArray (mapGet moduleMap "child_modules") = some childModulesData →
      sizeOf childModulesData < sizeOf (JSON.obj moduleMap)) ∧
    (∀ (address : String) (resources : List Resource)
      (outputs : List (String × OutputValue)) (childModules : List Module) (child : Module),
      child ∈ childModules →
      sizeOf child < sizeOf (Module.mk address resources outputs childModules)) ∧
    (∀ depth : Nat, ∃ modules,
      parseModules (nestedModulesData depth) "" = .ok modules ∧
      modulesDepth modules = depth ∧
      (modules.map countModuleResources).sum = depth ∧
      ((modules.foldl (fun state module => addModuleResourcesToState module state)
        ({} : StateData)).Resources).length = depth) := by
  refine ⟨parseModules_ok, fun moduleMap childModulesData h => ?_,
    fun address resources outputs childModules child hmem => ?_, fun depth => ?_⟩
  · have hget : ∀ (m : JMap) (v : JSON), mapGet m "child_modules" = some v →
        sizeOf v < sizeOf m := by
      intro m
      induction m with
      | nil => intro v hv; simp [mapGet, List.lookup] at hv
      | cons kv tail ih =>
        intro v hv
        obtain ⟨k, w⟩ := kv
        simp only [mapGet, List.lookup] at hv
        split at hv
        · simp only [Option.some.injEq] at hv
          subst hv
          simp only [List.cons.sizeOf_spec, Prod.mk.sizeOf_spec]
          omega
        · have := ih v hv
          simp only [List.cons.sizeOf_spec]
          omega
    cases hg : mapGet moduleMap "child_modules" with
    | none => simp [hg, asArray] at h
    | some v =>
      have hlt := hget moduleMap v hg
      cases v <;> simp [hg, asArray] at h
      subst h
      simp only [JSON.arr.sizeOf_spec] at hlt
      simp only [JSON.obj.sizeOf_spec]
      omega
  · have := List.sizeOf_lt_of_mem hmem
    simp only [Module.mk.sizeOf_spec]
    omega
  · obtain ⟨h1, h2⟩ := nestedModules_totals depth
    refine ⟨nestedModules depth, parseModules_nestedModulesData depth "", h1, ?_, ?_⟩
    · rw [sum_countModuleResources, h2]
    · rw [foldl_addModuleResourcesToState, foldl_addResourceToState]
      simpa using h2

/-- Witness for C29: a module object with one child, and a module with one child. -/
theorem recursion_total_at_any_depth_witness :
    sizeOf [JSON.obj []] <
      sizeOf (JSON.obj [("address", .str "module.m"), ("child_modules", .arr [.obj []])]) ∧
    sizeOf (Module.mk "module.m.module.n" [] [] []) <
      sizeOf (Module.mk "module.m" [] [] [Module.mk "module.m.module.n" [] [] []]) :=
  ⟨recursion_total_at_any_depth.2.1
      [("address", .str "module.m"), ("child_modules", .arr [.obj []])] [.obj []]
      (by simp [mapGet, List.lookup, asArray]),
   recursion_total_at_any_depth.2.2.1 "module.m" [] []
      [Module.mk "module.m.module.n" [] [] []] (Module.mk "module.m.module.n" [] [] [])
      (List.mem_singleton.mpr rfl)⟩

end TfStateViz
